import Mathlib

/-!
Verification of the enemy-behavior and stage-progression core of galangua
(a Galaga-style fixed shooter).  The definitions below are a shallow
embedding of the dispatch-table variant of the game core
(`galangua-core/src/app/game/enemy/enemy.rs`,
`galangua-core/src/app/game/manager/stage/stage_manager.rs`), with the
small leaf modules that are not part of the provided sources
(`util::math`, `traj`, `tractor_beam`, `consts`) modelled from the
specification.  Machine integers (`i32`, `u32`, `u16`, `u8`) are embedded
as `Int`/`Nat`; none of the embedded quantities approaches the 32-bit
range, so wrap-around is not modelled.  Rust's truncating `/` and `%` on
`i32` are embedded as `Int.tdiv`/`Int.tmod`, and the arithmetic right
shift `>>` as floor division by a power of two.
-/

namespace Galangua

/-! ## Fixed-point math utilities (modelled: `util::math` is not in the sources) -/

/-- Modelled from the spec: the `util::math` module is missing from the
sources.  Number of fractional bits of the fixed-point representation
(`ONE` is the unit scale). -/
def ONE_BIT : Nat := 8

/-- Modelled from the spec: fixed-point unit scale (`ONE = 1 << ONE_BIT`). -/
def ONE : Int := 256

/-- Modelled from the spec: full-turn scale for angles; an angle value of
`ANGLE * ONE` is one full turn. -/
def ANGLE : Int := 256

/-- Modelled from the spec: number of quantized sprite rotation steps
(`consts` is not in the sources). -/
def ANGLE_DIV : Int := 16

/-- Modelled from the spec: screen height in pixels (`consts` is not in the
sources). -/
def HEIGHT : Int := 288

/-- Arithmetic (sign-preserving floor) right shift, the embedding of Rust
`>>` on `i32`. -/
def asr (x : Int) (k : Nat) : Int := Int.fdiv x (2 ^ k)

/-- Modelled from the spec: clamp a value into `[lo, hi]`
(`util::math::clamp`). -/
def clamp (x lo hi : Int) : Int :=
  if x < lo then lo else if x > hi then hi else x

/-- Modelled from the spec: wrap an angle into the centered range
`[-ANGLE*ONE/2, ANGLE*ONE/2)` (`util::math::normalize_angle`). -/
def normalize_angle (angle : Int) : Int :=
  Int.emod (angle + ANGLE * ONE / 2) (ANGLE * ONE) - ANGLE * ONE / 2

/-- Modelled from the spec: signed difference between two angles
(`util::math::diff_angle`). -/
def diff_angle (target base : Int) : Int := normalize_angle (target - base)

/-- Modelled from the spec: square of an integer (`util::math::square`). -/
def square (x : Int) : Int := x * x

/-- Modelled from the spec: quantize an angle to `div` sprite-rotation
steps (`util::math::quantize_angle`). -/
def quantize_angle (angle div : Int) : Int :=
  let step := ANGLE * ONE / div
  Int.fdiv (angle + step / 2) step * step

/-- Modelled from the spec: quarter-wave sine lookup table,
`round (256 * sin (2 * pi * i / 256))` for `i = 0..64`
(lookup-table trigonometry; `util::math` is not in the sources). -/
def SIN_TABLE_QUARTER : List Int :=
  [0, 6, 13, 19, 25, 31, 38, 44, 50, 56, 62, 68, 74, 80, 86, 92, 98,
   104, 109, 115, 121, 126, 132, 137, 142, 147, 152, 157, 162, 167, 172,
   177, 181, 185, 190, 194, 198, 202, 206, 209, 213, 216, 220, 223, 226,
   229, 231, 234, 237, 239, 241, 243, 245, 247, 248, 250, 251, 252, 253,
   254, 255, 255, 256, 256, 256]

/-- Modelled from the spec: full-wave sine lookup, index one of 256
directions. -/
def sin_lut (i : Nat) : Int :=
  let j := i % 256
  if j ≤ 64 then SIN_TABLE_QUARTER.getD j 0
  else if j ≤ 128 then SIN_TABLE_QUARTER.getD (128 - j) 0
  else if j ≤ 192 then -SIN_TABLE_QUARTER.getD (j - 128) 0
  else -SIN_TABLE_QUARTER.getD (256 - j) 0

/-- Modelled from the spec: full-wave cosine lookup. -/
def cos_lut (i : Nat) : Int := sin_lut (i + 64)

/-- Two-dimensional fixed-point vector (`framework::types::Vec2I`). -/
structure Vec2I where
  x : Int
  y : Int
deriving DecidableEq, Repr

instance : Add Vec2I := ⟨fun a b => ⟨a.x + b.x, a.y + b.y⟩⟩
instance : Sub Vec2I := ⟨fun a b => ⟨a.x - b.x, a.y - b.y⟩⟩
instance : Neg Vec2I := ⟨fun a => ⟨-a.x, -a.y⟩⟩

def ZERO_VEC : Vec2I := ⟨0, 0⟩

/-- Modelled from the spec: velocity vector of a heading angle (clockwise
from screen north, `ANGLE*ONE` per turn) at a given fixed-point speed
(`util::math::calc_velocity`, lookup-table trigonometry). -/
def calc_velocity (angle speed : Int) : Vec2I :=
  let i := (Int.emod (asr (angle + ONE / 2) ONE_BIT) ANGLE).toNat
  ⟨Int.tdiv (sin_lut i * speed) ONE, Int.tdiv (-cos_lut i * speed) ONE⟩

/-- Modelled from the spec: lookup-table arctangent; `atan2_lut n e` is
the clockwise-from-north bearing (in `ANGLE*ONE`-per-turn units, in the
range `(-ANGLE*ONE/2, ANGLE*ONE/2]`) of a vector with north component `n`
and east component `e` (`util::math::atan2_lut`, piecewise-linear
octant approximation). -/
def atan2_lut (y x : Int) : Int :=
  let ax := |x|
  let ay := |y|
  let base :=
    if ax = 0 ∧ ay = 0 then 0
    else if ax ≤ ay then Int.tdiv (ax * (ANGLE * ONE / 8)) ay
    else ANGLE * ONE / 4 - Int.tdiv (ay * (ANGLE * ONE / 8)) ax
  if 0 ≤ x then
    (if 0 ≤ y then base else ANGLE * ONE / 2 - base)
  else
    (if 0 ≤ y then -base else -(ANGLE * ONE / 2 - base))

/-- Modelled from the spec: round a fixed-point vector to integer pixels
(`util::math::round_up`). -/
def round_up (v : Vec2I) : Vec2I :=
  ⟨asr (v.x + ONE / 2) ONE_BIT, asr (v.y + ONE / 2) ONE_BIT⟩

/-! ## Shared game-level constants -/

/-- Formation index: the 2D grid coordinate identifying an enemy's home
slot (`FormationIndex(u8, u8)` in the source; embedded over `Int` so that
the captured-fighter slot `(x, y-1)` needs no wrap-around model). -/
structure FormationIndex where
  x : Int
  y : Int
deriving DecidableEq, Repr

/-- Modelled from the spec: number of formation rows
(`formation::Y_COUNT`, not in the sources). -/
def Y_COUNT : Int := 6

/-- Modelled from the spec: opaque audio channel id (`consts::CH_JINGLE`,
not in the sources). -/
def CH_JINGLE : Nat := 2

/-- Modelled from the spec: opaque sound cue id (`consts::SE_ATTACK_START`,
not in the sources). -/
def SE_ATTACK_START : Nat := 1

/-- Shot-pause cooldown after an Owl kill
(`OWL_DESTROY_SHOT_WAIT = 3 * 60` in `enemy.rs`). -/
def OWL_DESTROY_SHOT_WAIT : Nat := 3 * 60

/-! ## Trajectory interpreter (modelled: `traj.rs` is not in the sources) -/

/-- Modelled from the spec: one tick of a scripted trajectory; the
interpreter produces position/angle/speed/angular-velocity per tick plus
an optional fire-request wait. -/
structure TrajStep where
  pos : Vec2I
  angle : Int
  speed : Int
  vangle : Int
  shot : Option Nat
deriving DecidableEq, Repr

/-- Modelled from the spec: the trajectory interpreter state.  The command
tables and interpreter (`traj.rs`, `traj_command_table.rs`) are not in the
sources, so a trajectory is modelled as the per-tick stream it produces. -/
structure Traj where
  steps : List TrajStep
  pos : Vec2I
  angle : Int
  speed : Int
  vangle : Int
  shot : Option Nat
deriving DecidableEq, Repr

/-- Modelled from the spec: build a trajectory from a command table. -/
def Traj.new (steps : List TrajStep) : Traj :=
  ⟨steps, ZERO_VEC, 0, 0, 0, none⟩

/-- Modelled from the spec: `Traj::set_pos`. -/
def Traj.set_pos (t : Traj) (pos : Vec2I) : Traj := {t with pos := pos}

/-- Modelled from the spec: advance the trajectory one tick; the returned
flag tells whether the trajectory is still running (`false` means
exhausted; an empty command table yields immediate exhaustion). -/
def Traj.update (t : Traj) : Traj × Bool :=
  match t.steps with
  | [] => ({t with shot := none}, false)
  | s :: rest =>
    (⟨rest, s.pos, s.angle, s.speed, s.vangle, s.shot⟩, decide (rest ≠ []))

/-- Modelled from the spec: scripted attack tables; their contents are in
`traj_command_table.rs`, which is not in the sources. -/
def BEE_ATTACK_TABLE : List TrajStep := []

/-- Modelled from the spec: scripted attack table (contents not in the
sources). -/
def BUTTERFLY_ATTACK_TABLE : List TrajStep := []

/-- Modelled from the spec: scripted attack table (contents not in the
sources). -/
def OWL_ATTACK_TABLE : List TrajStep := []

/-- Modelled from the spec: rush continuation table (contents not in the
sources). -/
def BEE_ATTACK_RUSH_CONT_TABLE : List TrajStep := []

/-- Modelled from the spec: rush attack table (contents not in the
sources). -/
def BEE_RUSH_ATTACK_TABLE : List TrajStep := []

/-- Modelled from the spec: rush attack table (contents not in the
sources). -/
def BUTTERFLY_RUSH_ATTACK_TABLE : List TrajStep := []

/-- Modelled from the spec: rush attack table (contents not in the
sources). -/
def OWL_RUSH_ATTACK_TABLE : List TrajStep := []

/-! ## Tractor beam (modelled: `tractor_beam.rs` is not in the sources) -/

/-- Modelled from the spec: tractor beam visual phases. -/
inductive TractorBeamState where
  | Opening
  | Full
  | Closing
  | Closed
  | Capturing
deriving DecidableEq, Repr

/-- Modelled from the spec: the tractor beam sub-state machine owned by a
capturing Owl. -/
structure TractorBeam where
  pos : Vec2I
  state : TractorBeamState
  count : Nat
  size_count : Int
deriving DecidableEq, Repr

/-- Modelled from the spec: number of beam segments (the beam sprite table
is not in the sources). -/
def TRACTOR_BEAM_SPRITE_COUNT : Nat := 29

/-- Modelled from the spec: `TractorBeam::new`. -/
def TractorBeam.new (pos : Vec2I) : TractorBeam :=
  ⟨pos, TractorBeamState.Opening, 0, 0⟩

/-- Modelled from the spec: one tick of the beam phase machine — the beam
grows by a third of a segment per tick while opening, stays full for a
3-second timeout, shrinks while closing, and holds in Closed/Capturing. -/
def TractorBeam.update (tb : TractorBeam) : TractorBeam :=
  match tb.state with
  | TractorBeamState.Opening =>
    let size_count := tb.size_count + ONE / 3
    if (TRACTOR_BEAM_SPRITE_COUNT : Int) * ONE ≤ size_count then
      {tb with size_count := (TRACTOR_BEAM_SPRITE_COUNT : Int) * ONE,
               state := TractorBeamState.Full, count := 0}
    else {tb with size_count := size_count}
  | TractorBeamState.Full =>
    let count := tb.count + 1
    if 3 * 60 ≤ count then {tb with count := count, state := TractorBeamState.Closing}
    else {tb with count := count}
  | TractorBeamState.Closing =>
    let size_count := if ONE / 3 < tb.size_count then tb.size_count - ONE / 3 else 0
    if size_count = 0 then {tb with size_count := 0, state := TractorBeamState.Closed}
    else {tb with size_count := size_count}
  | TractorBeamState.Closed => tb
  | TractorBeamState.Capturing => tb

/-- Modelled from the spec: whether the beam has reached the closed phase
(`TractorBeam::closed`). -/
def TractorBeam.closed (tb : TractorBeam) : Bool :=
  tb.state = TractorBeamState.Closed

/-- Capture range check: the beam can capture a player horizontally within
24 pixels of the beam (`TractorBeam::can_capture`; the 24-pixel range is
taken from `can_tractor_beam_capture_player` in
`galangua-ecs/src/app/system/system_enemy.rs`), and only while the beam is
fully open. -/
def TractorBeam.can_capture (tb : TractorBeam) (player_pos : Vec2I) : Bool :=
  tb.state = TractorBeamState.Full ∧ |player_pos.x - tb.pos.x| ≤ 24 * ONE

/-- Modelled from the spec: `TractorBeam::start_capture`. -/
def TractorBeam.start_capture (tb : TractorBeam) : TractorBeam :=
  {tb with state := TractorBeamState.Capturing}

/-- Modelled from the spec: `TractorBeam::close_capture` starts the
closing phase. -/
def TractorBeam.close_capture (tb : TractorBeam) : TractorBeam :=
  {tb with state := TractorBeamState.Closing}

/-! ## Enemy data model (`galangua-core/src/app/game/enemy/enemy.rs`) -/

inductive EnemyType where
  | Bee
  | Butterfly
  | Owl
  | CapturedFighter
deriving DecidableEq, Repr

inductive EnemyState where
  | None
  | Appearance
  | MoveToFormation
  | Assault
  | Formation
  | Attack
  | Troop
deriving DecidableEq, Repr

inductive CapturingState where
  | None
  | Attacking
  | BeamTracting
deriving DecidableEq, Repr

structure DamageResult where
  killed : Bool
  point : Nat
deriving DecidableEq, Repr

def MAX_TROOPS : Nat := 3

/-- Tag for the per-state update function stored in `Enemy::update_fn`
(the source stores a function pointer; the embedding dispatches on this
tag). -/
inductive UFn where
  | update_none
  | update_trajectory
  | update_move_to_formation
  | update_assault
  | update_assault2
  | update_formation
  | update_bee_attack
  | update_attack_traj
  | update_attack_capture
  | update_attack_capture_beam
  | update_attack_capture_go_out
  | update_attack_capture_start
  | update_attack_capture_close_beam
  | update_attack_capture_capture_done_wait
  | update_attack_capture_back
  | update_attack_capture_push_up
deriving DecidableEq, Repr

/-- The enemy entity (`struct Enemy`).  `u32`/`u8` counters are embedded
as `Nat`, fixed-point `i32` quantities as `Int`. -/
structure Enemy where
  enemy_type : EnemyType
  state : EnemyState
  pos : Vec2I
  angle : Int
  speed : Int
  vangle : Int
  formation_index : FormationIndex
  life : Nat
  traj : Option Traj
  shot_wait : Option Nat
  update_fn : UFn
  count : Nat
  attack_frame_count : Nat
  target_pos : Vec2I
  tractor_beam : Option TractorBeam
  capturing_state : CapturingState
  troops : List (Option FormationIndex)
  copy_angle_to_troops : Bool
  disappeared : Bool
deriving DecidableEq, Repr

/-- Starting life per enemy type (the `life` entries of `ENEMY_VTABLE`). -/
def vtable_life : EnemyType → Nat
  | EnemyType.Bee => 1
  | EnemyType.Butterfly => 1
  | EnemyType.Owl => 2
  | EnemyType.CapturedFighter => 1

/-- Constructor `Enemy::new`. -/
def Enemy.new (enemy_type : EnemyType) (pos : Vec2I) (angle speed : Int) : Enemy where
  enemy_type := enemy_type
  state := EnemyState.None
  pos := pos
  angle := angle
  speed := speed
  vangle := 0
  formation_index := ⟨255, 255⟩
  life := vtable_life enemy_type
  traj := none
  shot_wait := none
  update_fn := UFn.update_none
  count := 0
  attack_frame_count := 0
  target_pos := ZERO_VEC
  tractor_beam := none
  capturing_state := CapturingState.None
  troops := [none, none, none]
  copy_angle_to_troops := true
  disappeared := false

/-- Predicate `Enemy::is_ghost` — life exhausted. -/
def is_ghost (e : Enemy) : Bool := e.life = 0

/-- The enemy arena as seen through the accessor: a lookup from formation
index to the enemy stored there (`Accessor::get_enemy_at`); absence is
normal. -/
def EnemyMap : Type := FormationIndex → Option Enemy

/-- Pointwise store into the enemy arena (the effect of mutating through
`Accessor::get_enemy_at_mut`). -/
def map_set (m : EnemyMap) (fi : FormationIndex) (e : Enemy) : EnemyMap :=
  fun j => if j = fi then some e else m j

/-- The accessor: the external queries the enemy core consumes during one
tick, together with the enemy arena it may mutate through
`get_enemy_at_mut` and the shot-pause request channel
(`Accessor::pause_enemy_shot`). -/
structure Acc where
  enemies : EnemyMap
  formation_pos : FormationIndex → Vec2I
  player_pos : Vec2I
  dual_player_pos : Option Vec2I
  can_player_capture_flag : Bool
  player_capture_completed : Bool
  rush : Bool
  stage_no : Nat
  rng_pick : Nat
  shot_pause : Option Nat

/-- Events pushed to the per-tick queue (`EventType` in
`app/game/mod.rs`; the variants are those used by the embedded code). -/
inductive EventType where
  | EneShot (pos : Vec2I)
  | EnemyExplosion (pos : Vec2I) (angle : Int) (enemy_type : EnemyType)
  | PlaySe (channel : Nat) (cue : Nat)
  | CapturePlayer (pos : Vec2I)
  | CapturePlayerCompleted
  | SpawnCapturedFighter (pos : Vec2I) (fi : FormationIndex)
  | CaptureSequenceEnded
  | RecapturePlayer (fi : FormationIndex)
  | EndCaptureAttack
  | EscapeCapturing
  | CapturedFighterDestroyed
deriving DecidableEq, Repr

/-! ## State machinery -/

/-- The `state → update_fn` table of `Enemy::set_state`; `none` marks the
illegal `Attack` request, on which the source prints "illegal state" and
terminates the process (`std::process::exit(1)`). -/
def state_update_fn : EnemyState → Option UFn
  | EnemyState.None => some UFn.update_none
  | EnemyState.Troop => some UFn.update_none
  | EnemyState.Appearance => some UFn.update_trajectory
  | EnemyState.MoveToFormation => some UFn.update_move_to_formation
  | EnemyState.Assault => some UFn.update_assault
  | EnemyState.Formation => some UFn.update_formation
  | EnemyState.Attack => none

/-- Generic state setter `Enemy::set_state`; the `none` result models the
fatal process termination on the `Attack` request. -/
def set_state (e : Enemy) (s : EnemyState) : Option Enemy :=
  (state_update_fn s).map fun f => {e with state := s, update_fn := f}

/-- Total variant of `set_state` for the internal call sites, none of
which passes `Attack`. -/
def set_stateD (e : Enemy) (s : EnemyState) : Enemy :=
  (set_state e s).getD e

/-- Setter `Enemy::set_state_with_fn` used by the attack behaviors. -/
def set_state_with_fn (e : Enemy) (s : EnemyState) (f : UFn) : Enemy :=
  {e with state := s, update_fn := f}

/-- Setter `Enemy::set_to_troop`. -/
def set_to_troop (e : Enemy) : Enemy := set_stateD e EnemyState.Troop

/-- Setter `Enemy::set_to_formation`: stops, normalizes the angle, and —
when the enemy is already a ghost — marks it disappeared. -/
def set_to_formation (e : Enemy) : Enemy :=
  let e := {e with speed := 0, angle := normalize_angle e.angle, vangle := 0,
                   copy_angle_to_troops := true}
  let e := if is_ghost e then {e with disappeared := true} else e
  set_stateD e EnemyState.Formation

/-! ## Troop management -/

/-- Predicate `Enemy::live_troops`: some troop reference resolves to a
live enemy that is not a captured fighter. -/
def live_troops (e : Enemy) (m : EnemyMap) : Bool :=
  e.troops.any fun t =>
    match t with
    | none => false
    | some fi =>
      match m fi with
      | none => false
      | some troop => decide (troop.enemy_type ≠ EnemyType.CapturedFighter)

/-- Troop member position/angle update `Enemy::update_troop`. -/
def update_troop (e : Enemy) (add : Vec2I) (angle_opt : Option Int) : Enemy :=
  let e := {e with pos := e.pos + add}
  match angle_opt with
  | some angle => {e with angle := angle}
  | none => e

/-- Leader-side propagation `Enemy::update_troops`: each troop reference
that resolves has the leader's position delta applied (and optionally the
leader's absolute angle); unresolved references are skipped. -/
def update_troops (troops : List (Option FormationIndex)) (add : Vec2I)
    (angle_opt : Option Int) (m : EnemyMap) : EnemyMap :=
  troops.foldl
    (fun m t =>
      match t with
      | none => m
      | some fi =>
        match m fi with
        | none => m
        | some troop => map_set m fi (update_troop troop add angle_opt))
    m

/-- Setter `Enemy::release_troops`: every troop that still resolves is
returned to Formation state, and all slots are cleared. -/
def release_troops (e : Enemy) (m : EnemyMap) : Enemy × EnemyMap :=
  let m := e.troops.foldl
    (fun m t =>
      match t with
      | none => m
      | some fi =>
        match m fi with
        | none => m
        | some en => map_set m fi (set_to_formation en))
    m
  ({e with troops := e.troops.map fun _ => none}, m)

/-- Cleanup `Enemy::remove_destroyed_troops`: slots whose enemy no longer
exists are cleared. -/
def remove_destroyed_troops (e : Enemy) (m : EnemyMap) : Enemy :=
  {e with troops := e.troops.map fun t =>
    match t with
    | none => none
    | some fi => if (m fi).isSome then some fi else none}

/-- Slot filler `Enemy::add_troop` on the troop list: stores into the
first free slot, reporting success. -/
def add_troop_list : List (Option FormationIndex) → FormationIndex →
    List (Option FormationIndex) × Bool
  | [], _ => ([], false)
  | none :: rest, fi => (some fi :: rest, true)
  | some a :: rest, fi =>
    let (rest, ok) := add_troop_list rest fi
    (some a :: rest, ok)

/-- Slot filler `Enemy::add_troop`. -/
def add_troop (e : Enemy) (fi : FormationIndex) : Enemy × Bool :=
  let (troops, ok) := add_troop_list e.troops fi
  ({e with troops := troops}, ok)

/-- Escort recruitment `Enemy::choose_troops`: the three neighbour slots
(left-below, right-below, above) that hold a Formation-state enemy are
recruited, and each recruited enemy is put into Troop state. -/
def choose_troops (e : Enemy) (m : EnemyMap) : Enemy × EnemyMap :=
  let base := e.formation_index
  let indices : List FormationIndex :=
    [⟨base.x - 1, base.y + 1⟩, ⟨base.x + 1, base.y + 1⟩, ⟨base.x, base.y - 1⟩]
  let e := indices.foldl
    (fun e idx =>
      match m idx with
      | some en => if en.state = EnemyState.Formation then (add_troop e idx).1 else e
      | none => e)
    e
  let m := (e.troops.filterMap id).foldl
    (fun m idx =>
      match m idx with
      | some en => map_set m idx (set_to_troop en)
      | none => m)
    m
  (e, m)

/-! ## Attack shot cadence -/

/-- Shot cadence `Enemy::update_attack`: advances the attack frame counter
and fires on the first `shot_count` multiples of the interval, also firing
from every troop position that resolves. -/
def update_attack (e : Enemy) (acc : Acc) : Enemy × List EventType :=
  let e := {e with attack_frame_count := e.attack_frame_count + 1}
  let shot_count := min (2 + acc.stage_no / 8) 5
  let shot_interval := 20 - shot_count * 2
  if e.attack_frame_count ≤ shot_interval * shot_count ∧
      e.attack_frame_count % shot_interval = 0 then
    let troop_shots := (e.troops.filterMap id).filterMap fun fi =>
      (acc.enemies fi).map fun en => EventType.EneShot en.pos
    (e, EventType.EneShot e.pos :: troop_shots)
  else
    (e, [])

/-! ## Point values and damage (the `calc_point` / `set_damage` vtable
entries) -/

/-- Point value calculator (the `calc_point` entries of `ENEMY_VTABLE`).
For the Owl the payout outside Formation state doubles per troop slot
other than the captured-fighter slot `(x, y-1)`. -/
def calc_point (e : Enemy) : Nat :=
  match e.enemy_type with
  | EnemyType.Bee => if e.state = EnemyState.Formation then 50 else 100
  | EnemyType.Butterfly => if e.state = EnemyState.Formation then 80 else 160
  | EnemyType.Owl =>
    if e.state = EnemyState.Formation then 150
    else
      let cap_fi : FormationIndex := ⟨e.formation_index.x, e.formation_index.y - 1⟩
      let count := (e.troops.filterMap id).countP fun idx => decide (idx ≠ cap_fi)
      (1 <<< count) * 400
  | EnemyType.CapturedFighter => if e.state = EnemyState.Formation then 500 else 1000

/-- Damage handler `bee_set_damage` (shared by Bee and Butterfly). -/
def bee_set_damage (e : Enemy) (power : Nat) : Enemy × DamageResult :=
  if power < e.life then
    ({e with life := e.life - power}, ⟨false, 0⟩)
  else
    let e := {e with life := 0}
    (e, ⟨true, calc_point e⟩)

/-- Damage handler `owl_set_damage`: on lethal damage the Owl stays
reported unkilled while live non-captured troops remain (ghost), any
in-progress capture is released with the state-specific event, and enemy
shots are paused stage-wide. -/
def owl_set_damage (e : Enemy) (power : Nat) (acc : Acc) :
    Enemy × Acc × DamageResult × List EventType :=
  if power < e.life then
    ({e with life := e.life - power}, acc, ⟨false, 0⟩, [])
  else
    let e := {e with life := 0}
    let killed := !live_troops e acc.enemies
    let point := calc_point e
    let evs : List EventType :=
      match e.capturing_state with
      | CapturingState.None =>
        let fi : FormationIndex := ⟨e.formation_index.x, e.formation_index.y - 1⟩
        if (e.troops.filterMap id).any (fun idx => decide (idx = fi)) then
          [EventType.RecapturePlayer fi]
        else []
      | CapturingState.Attacking => [EventType.EndCaptureAttack]
      | CapturingState.BeamTracting => [EventType.EscapeCapturing]
    let e := {e with capturing_state := CapturingState.None}
    let acc := {acc with shot_pause := some OWL_DESTROY_SHOT_WAIT}
    (e, acc, ⟨killed, point⟩, evs)

/-- Damage handler of the CapturedFighter vtable entry. -/
def captured_fighter_set_damage (e : Enemy) (power : Nat) :
    Enemy × DamageResult × List EventType :=
  if power < e.life then
    ({e with life := e.life - power}, ⟨false, 0⟩, [])
  else
    let e := {e with life := 0}
    (e, ⟨true, calc_point e⟩, [EventType.CapturedFighterDestroyed])

/-- Public wrapper `Enemy::set_damage`: dispatches to the vtable damage
handler and pushes the explosion event when points were scored. -/
def Enemy.set_damage (e : Enemy) (power : Nat) (acc : Acc) :
    Enemy × Acc × DamageResult × List EventType :=
  let (e, acc, result, evs) :=
    match e.enemy_type with
    | EnemyType.Owl => owl_set_damage e power acc
    | EnemyType.CapturedFighter =>
      let (e, result, evs) := captured_fighter_set_damage e power
      (e, acc, result, evs)
    | _ =>
      let (e, result) := bee_set_damage e power
      (e, acc, result, [])
  if 0 < result.point then
    (e, acc, result, evs ++ [EventType.EnemyExplosion e.pos e.angle e.enemy_type])
  else
    (e, acc, result, evs)

/-! ## Attack initiation (the `set_attack` vtable entries) and rush
attacks -/

/-- Rush restart `Enemy::rush_attack`: reloads the type-specific rush
table and re-enters the scripted attack. -/
def rush_attack (e : Enemy) : Enemy :=
  let table :=
    match e.enemy_type with
    | EnemyType.Bee => BEE_RUSH_ATTACK_TABLE
    | EnemyType.Butterfly => BUTTERFLY_RUSH_ATTACK_TABLE
    | EnemyType.Owl => OWL_RUSH_ATTACK_TABLE
    | EnemyType.CapturedFighter => OWL_RUSH_ATTACK_TABLE
  let traj := Traj.set_pos (Traj.new table) e.pos
  let e := {e with count := 0, attack_frame_count := 0, traj := some traj}
  set_state_with_fn e EnemyState.Attack UFn.update_attack_traj

/-- Attack initiation `bee_set_attack`. -/
def bee_set_attack (e : Enemy) : Enemy :=
  let traj := Traj.set_pos (Traj.new BEE_ATTACK_TABLE) e.pos
  let e := {e with count := 0, attack_frame_count := 0, traj := some traj}
  set_state_with_fn e EnemyState.Attack UFn.update_bee_attack

/-- Attack initiation `butterfly_set_attack`. -/
def butterfly_set_attack (e : Enemy) : Enemy :=
  let traj := Traj.set_pos (Traj.new BUTTERFLY_ATTACK_TABLE) e.pos
  let e := {e with count := 0, attack_frame_count := 0, traj := some traj}
  set_state_with_fn e EnemyState.Attack UFn.update_attack_traj

/-- Attack initiation `captured_fighter_set_attack`. -/
def captured_fighter_set_attack (e : Enemy) : Enemy :=
  let traj := Traj.set_pos (Traj.new OWL_ATTACK_TABLE) e.pos
  let e := {e with count := 0, attack_frame_count := 0, traj := some traj}
  set_state_with_fn e EnemyState.Attack UFn.update_attack_traj

/-- Attack initiation of the Owl vtable entry: a normal scripted attack
recruits escorts; a capture attack banks toward a point above the player
and enters the private capture sequence. -/
def owl_set_attack (e : Enemy) (capture_attack : Bool) (acc : Acc) : Enemy × Acc :=
  let e := {e with count := 0, attack_frame_count := 0,
                   troops := e.troops.map fun _ => none}
  if capture_attack = false then
    let e := {e with copy_angle_to_troops := true}
    let (e, m) := choose_troops e acc.enemies
    let traj := Traj.set_pos (Traj.new OWL_ATTACK_TABLE) e.pos
    let e := {e with traj := some traj}
    (set_state_with_fn e EnemyState.Attack UFn.update_attack_traj,
     {acc with enemies := m})
  else
    let e := {e with capturing_state := CapturingState.Attacking,
                     speed := 3 * ONE / 2,
                     angle := 0,
                     vangle := if e.formation_index.x < 5 then -(4 * ONE) else 4 * ONE,
                     target_pos := ⟨acc.player_pos.x, (HEIGHT - 16 - 8 - 88) * ONE⟩}
    (set_state_with_fn e EnemyState.Attack UFn.update_attack_capture, acc)

/-- Public wrapper `Enemy::set_attack`: dispatches to the vtable attack
initiation and pushes the attack jingle. -/
def Enemy.set_attack (e : Enemy) (capture_attack : Bool) (acc : Acc) :
    Enemy × Acc × List EventType :=
  let (e, acc) :=
    match e.enemy_type with
    | EnemyType.Bee => (bee_set_attack e, acc)
    | EnemyType.Butterfly => (butterfly_set_attack e, acc)
    | EnemyType.Owl => owl_set_attack e capture_attack acc
    | EnemyType.CapturedFighter => (captured_fighter_set_attack e, acc)
  (e, acc, [EventType.PlaySe CH_JINGLE SE_ATTACK_START])

/-! ## Per-state update functions -/

/-- State update `update_none` (also used for Troop state). -/
def update_none (e : Enemy) (acc : Acc) : Enemy × Acc × List EventType :=
  (e, acc, [])

/-- Trajectory-driven update `update_trajectory`: runs the scripted
motion, counts down a pending fire request, and on exhaustion transitions
to Assault (for rows at or beyond the last formation row, toward a
randomly chosen live player) or to MoveToFormation. -/
def update_trajectory (e : Enemy) (acc : Acc) : Enemy × Acc × List EventType :=
  let (e, evs, cont) :=
    match e.traj with
    | some traj =>
      let (traj, cont) := Traj.update traj
      let e := {e with traj := some traj, pos := traj.pos, angle := traj.angle,
                       speed := traj.speed, vangle := traj.vangle}
      let e :=
        match traj.shot with
        | some wait => {e with shot_wait := some wait}
        | none => e
      let (e, evs) :=
        match e.shot_wait with
        | some wait =>
          if 0 < wait then ({e with shot_wait := some (wait - 1)}, [])
          else ({e with shot_wait := none}, [EventType.EneShot e.pos])
        | none => (e, [])
      (e, evs, cont)
    | none => (e, [], false)
  if cont then (e, acc, evs)
  else
    let e := {e with traj := none}
    if e.state = EnemyState.Appearance ∧ Y_COUNT ≤ e.formation_index.y then
      let targets := [some acc.player_pos, acc.dual_player_pos].filterMap id
      let target := targets.getD (acc.rng_pick % targets.length) acc.player_pos
      (set_stateD {e with target_pos := target, vangle := 0} EnemyState.Assault,
       acc, evs)
    else
      (set_stateD e EnemyState.MoveToFormation, acc, evs)

/-- Method `Enemy::update_move_to_formation`: while the shifted squared
distance to the formation slot exceeds the shifted squared speed, correct
only the heading (clamped to `speed * 5 / 3`) and zero the angular
velocity; otherwise pin to the target and stop.  Returns whether the move
is still in progress. -/
def update_move_to_formation_step (e : Enemy) (acc : Acc) : Enemy × Bool :=
  let target := acc.formation_pos e.formation_index
  let diff := target - e.pos
  let sq_distance := square (asr diff.x (ONE_BIT / 2)) + square (asr diff.y (ONE_BIT / 2))
  if square (asr e.speed (ONE_BIT / 2)) < sq_distance then
    let dlimit := Int.tdiv (e.speed * 5) 3
    let target_angle := atan2_lut (-diff.y) diff.x
    let d := diff_angle target_angle e.angle
    ({e with angle := e.angle + clamp d (-dlimit) dlimit, vangle := 0}, true)
  else
    ({e with pos := target, speed := 0, capturing_state := CapturingState.None}, false)

/-- State update `update_move_to_formation` (the free function): steps the
approach, and on arrival releases the troops and settles into Formation
state. -/
def update_move_to_formation (e : Enemy) (acc : Acc) : Enemy × Acc × List EventType :=
  let (e, cont) := update_move_to_formation_step e acc
  if cont then (e, acc, [])
  else
    let (e, m) := release_troops e acc.enemies
    (set_to_formation e, {acc with enemies := m}, [])

/-- State update `update_assault`: turn toward the chosen player target
with a 5-unit turn limit; once aligned, fall straight
(`update_assault2`). -/
def update_assault (e : Enemy) (acc : Acc) : Enemy × Acc × List EventType :=
  let diff := e.target_pos - e.pos
  let dlimit := 5 * ONE
  let target_angle := atan2_lut (-diff.y) diff.x
  let d := diff_angle target_angle e.angle
  let e :=
    if d < -dlimit then {e with angle := e.angle - dlimit}
    else if dlimit < d then {e with angle := e.angle + dlimit}
    else {e with angle := e.angle + d, update_fn := UFn.update_assault2}
  (e, acc, [])

/-- State update `update_assault2`: self-remove once off the bottom of the
screen. -/
def update_assault2 (e : Enemy) (acc : Acc) : Enemy × Acc × List EventType :=
  if (HEIGHT + 8) * ONE ≤ e.pos.y then ({e with disappeared := true}, acc, [])
  else (e, acc, [])

/-- State update `update_formation`: pin to the formation grid target and
decay the residual angle by `ANGLE*ONE/128` per tick. -/
def update_formation (e : Enemy) (acc : Acc) : Enemy × Acc × List EventType :=
  let e := {e with pos := acc.formation_pos e.formation_index}
  let ang := ANGLE * ONE / 128
  ({e with angle := e.angle - clamp e.angle (-ang) ang}, acc, [])

/-- State update `update_attack_traj`: scripted attack plus shot cadence;
on exhaustion a CapturedFighter self-removes, and in rush mode the attack
restarts with the rush table. -/
def update_attack_traj (e : Enemy) (acc : Acc) : Enemy × Acc × List EventType :=
  let (e, evs1) := update_attack e acc
  let (e, acc, evs2) := update_trajectory e acc
  let (e, acc, evs3) :=
    if e.state ≠ EnemyState.Attack then
      if e.enemy_type = EnemyType.CapturedFighter then
        ({e with disappeared := true}, acc, ([] : List EventType))
      else if acc.rush then
        let e := remove_destroyed_troops e acc.enemies
        (rush_attack e, acc, [EventType.PlaySe CH_JINGLE SE_ATTACK_START])
      else (e, acc, [])
    else (e, acc, [])
  (e, acc, evs1 ++ evs2 ++ evs3)

/-- State update `update_bee_attack`: like the scripted attack, but in
rush mode exhaustion continues with the rush-continuation table. -/
def update_bee_attack (e : Enemy) (acc : Acc) : Enemy × Acc × List EventType :=
  let (e, evs1) := update_attack e acc
  let (e, acc, evs2) := update_trajectory e acc
  let (e, evs3) :=
    if e.state ≠ EnemyState.Attack then
      if acc.rush then
        let traj := Traj.set_pos (Traj.new BEE_ATTACK_RUSH_CONT_TABLE) e.pos
        let e := {e with traj := some traj}
        (set_state_with_fn e EnemyState.Attack UFn.update_attack_traj,
         [EventType.PlaySe CH_JINGLE SE_ATTACK_START])
      else (e, ([] : List EventType))
    else (e, [])
  (e, acc, evs1 ++ evs2 ++ evs3)

/-- Position jump `Enemy::warp` used when wrapping from below the screen
back above it. -/
def warp (e : Enemy) (offset : Vec2I) : Enemy := {e with pos := e.pos + offset}

/-- Capture phase 1 `update_attack_capture`: steer with an asymmetric turn
limit toward the hover point above the player, snapping the angle once
within tolerance; once past the target height, stop, aim straight down,
and spawn the tractor beam. -/
def update_attack_capture (e : Enemy) (acc : Acc) : Enemy × Acc × List EventType :=
  let dlimit := 4 * ONE
  let dpos := e.target_pos - e.pos
  let target_angle := atan2_lut (-dpos.y) dpos.x
  let ang_limit := ANGLE * ONE / 2 - ANGLE * ONE * 30 / 360
  let target_angle :=
    if 0 ≤ target_angle then max target_angle ang_limit
    else min target_angle (-ang_limit)
  let d := diff_angle target_angle e.angle
  let d :=
    if 0 < e.vangle ∧ d < 0 then d + ANGLE * ONE
    else if e.vangle < 0 ∧ 0 < d then d - ANGLE * ONE
    else d
  let e :=
    if -dlimit ≤ d ∧ d < dlimit then {e with angle := target_angle, vangle := 0}
    else e
  if e.target_pos.y ≤ e.pos.y then
    let e := {e with pos := ⟨e.pos.x, e.target_pos.y⟩, speed := 0,
                     angle := ANGLE / 2 * ONE, vangle := 0}
    let e := {e with tractor_beam := some (TractorBeam.new (e.pos + ⟨0, 8 * ONE⟩)),
                     update_fn := UFn.update_attack_capture_beam, count := 0}
    (e, acc, [])
  else
    (e, acc, [])

/-- Capture phase 2 `update_attack_capture_beam`: with the beam out, a
closed beam (capture timed out) starts the fly-out; otherwise, when the
player is capturable and within beam range, push `CapturePlayer`, start
capturing, and enter the BeamTracting capturing-state. -/
def update_attack_capture_beam (e : Enemy) (acc : Acc) : Enemy × Acc × List EventType :=
  match e.tractor_beam with
  | none => (e, acc, [])
  | some tb =>
    if TractorBeam.closed tb then
      ({e with tractor_beam := none, speed := 5 * ONE / 2,
               update_fn := UFn.update_attack_capture_go_out}, acc, [])
    else if acc.can_player_capture_flag ∧ TractorBeam.can_capture tb acc.player_pos then
      ({e with tractor_beam := some (TractorBeam.start_capture tb),
               capturing_state := CapturingState.BeamTracting,
               update_fn := UFn.update_attack_capture_start, count := 0},
       acc, [EventType.CapturePlayer (e.pos + ⟨0, 16 * ONE⟩)])
    else
      (e, acc, [])

/-- Capture fly-out `update_attack_capture_go_out`: once off the bottom of
the screen, wrap above the formation column and either rush-attack again
or head back to formation, ending the capture attack. -/
def update_attack_capture_go_out (e : Enemy) (acc : Acc) : Enemy × Acc × List EventType :=
  if (HEIGHT + 8) * ONE ≤ e.pos.y then
    let target_pos := acc.formation_pos e.formation_index
    let offset : Vec2I := ⟨target_pos.x - e.pos.x, (-32 - (HEIGHT + 8)) * ONE⟩
    let e := warp e offset
    if acc.rush then
      (rush_attack e, acc, [EventType.PlaySe CH_JINGLE SE_ATTACK_START])
    else
      let e := set_stateD e EnemyState.MoveToFormation
      ({e with capturing_state := CapturingState.None}, acc,
       [EventType.EndCaptureAttack])
  else
    (e, acc, [])

/-- Capture phase 3 `update_attack_capture_start`: wait for the external
capture-completed confirmation, then close the beam. -/
def update_attack_capture_start (e : Enemy) (acc : Acc) : Enemy × Acc × List EventType :=
  if acc.player_capture_completed then
    ({e with tractor_beam := e.tractor_beam.map TractorBeam.close_capture,
             update_fn := UFn.update_attack_capture_close_beam, count := 0},
     acc, [])
  else
    (e, acc, [])

/-- Capture phase 4 `update_attack_capture_close_beam`: when the beam has
closed, spawn the captured fighter at slot `(x, y-1)`, adopt it as a
troop, fire `CapturePlayerCompleted`, and start the 120-tick wait. -/
def update_attack_capture_close_beam (e : Enemy) (acc : Acc) : Enemy × Acc × List EventType :=
  match e.tractor_beam with
  | none => (e, acc, [])
  | some tb =>
    if TractorBeam.closed tb then
      let fi : FormationIndex := ⟨e.formation_index.x, e.formation_index.y - 1⟩
      let evs := [EventType.SpawnCapturedFighter (e.pos + ⟨0, 16 * ONE⟩) fi]
      let e := (add_troop e fi).1
      let e := {e with tractor_beam := none,
                       capturing_state := CapturingState.Attacking}
      let evs := evs ++ [EventType.CapturePlayerCompleted]
      let e := {e with copy_angle_to_troops := false,
                       update_fn := UFn.update_attack_capture_capture_done_wait,
                       count := 0}
      (e, acc, evs)
    else
      (e, acc, [])

/-- Capture wait `update_attack_capture_capture_done_wait`: hold position
for 120 ticks, then fly back toward the formation slot. -/
def update_attack_capture_capture_done_wait (e : Enemy) (acc : Acc) :
    Enemy × Acc × List EventType :=
  let e := {e with count := e.count + 1}
  if 120 ≤ e.count then
    ({e with speed := 5 * ONE / 2, update_fn := UFn.update_attack_capture_back},
     acc, [])
  else
    (e, acc, [])

/-- Capture return `update_attack_capture_back`: approach the formation
slot; on arrival stop, normalize the angle, and start pushing the
captured fighter up. -/
def update_attack_capture_back (e : Enemy) (acc : Acc) : Enemy × Acc × List EventType :=
  let (e, cont) := update_move_to_formation_step e acc
  if cont then (e, acc, [])
  else
    ({e with speed := 0, angle := normalize_angle e.angle,
             update_fn := UFn.update_attack_capture_push_up}, acc, [])

/-- Capture push-up `update_attack_capture_push_up`: decay the residual
angle, move the captured fighter up one unit per tick, and once it sits 16
units above the Owl fire `CaptureSequenceEnded`, release the troops, and
settle into Formation state. -/
def update_attack_capture_push_up (e : Enemy) (acc : Acc) : Enemy × Acc × List EventType :=
  let ang := ANGLE * ONE / 128
  let e := {e with angle := e.angle - clamp e.angle (-ang) ang}
  let fi : FormationIndex := ⟨e.formation_index.x, e.formation_index.y - 1⟩
  match acc.enemies fi with
  | some captured_fighter =>
    let y := captured_fighter.pos.y - 1 * ONE
    let topy := e.pos.y - 16 * ONE
    let (y, done) := if y ≤ topy then (topy, true) else (y, false)
    let captured_fighter := {captured_fighter with pos := ⟨captured_fighter.pos.x, y⟩}
    let acc := {acc with enemies := map_set acc.enemies fi captured_fighter}
    if done then
      let (e, m) := release_troops e acc.enemies
      (set_to_formation e, {acc with enemies := m}, [EventType.CaptureSequenceEnded])
    else
      (e, acc, [])
  | none =>
    (e, acc, [])

/-! ## The per-tick enemy update -/

/-- Dispatch on the stored update-function tag (the source stores the
function pointer itself). -/
def run_update_fn : UFn → Enemy → Acc → Enemy × Acc × List EventType
  | UFn.update_none => update_none
  | UFn.update_trajectory => update_trajectory
  | UFn.update_move_to_formation => update_move_to_formation
  | UFn.update_assault => update_assault
  | UFn.update_assault2 => update_assault2
  | UFn.update_formation => update_formation
  | UFn.update_bee_attack => update_bee_attack
  | UFn.update_attack_traj => update_attack_traj
  | UFn.update_attack_capture => update_attack_capture
  | UFn.update_attack_capture_beam => update_attack_capture_beam
  | UFn.update_attack_capture_go_out => update_attack_capture_go_out
  | UFn.update_attack_capture_start => update_attack_capture_start
  | UFn.update_attack_capture_close_beam => update_attack_capture_close_beam
  | UFn.update_attack_capture_capture_done_wait => update_attack_capture_capture_done_wait
  | UFn.update_attack_capture_back => update_attack_capture_back
  | UFn.update_attack_capture_push_up => update_attack_capture_push_up

/-- Per-tick update `Enemy::update`: run the state update function,
integrate position and angle, propagate the position delta (and
optionally the absolute angle) to the troops, advance the tractor beam,
and mark a troopless ghost disappeared. -/
def Enemy.update (e : Enemy) (acc : Acc) : Enemy × Acc × List EventType :=
  let prev_pos := e.pos
  let (e, acc, evs) := run_update_fn e.update_fn e acc
  let e := {e with pos := e.pos + calc_velocity (e.angle + Int.tdiv e.vangle 2) e.speed,
                   angle := e.angle + e.vangle}
  let angle_opt := if e.copy_angle_to_troops then some e.angle else none
  let acc := {acc with enemies := update_troops e.troops (e.pos - prev_pos) angle_opt acc.enemies}
  let e := {e with tractor_beam := e.tractor_beam.map TractorBeam.update}
  let e :=
    if is_ghost e ∧ e.disappeared = false ∧ live_troops e acc.enemies = false then
      {e with disappeared := true}
    else e
  (e, acc, evs)

/-! ## Collision box and rendering -/

/-- Collision box (`app::util::CollBox`). -/
structure CollBox where
  top_left : Vec2I
  size : Vec2I
deriving DecidableEq, Repr

/-- Collidable implementation for `Enemy`: a live enemy presents a 12-by-12
box around its rounded position; a ghost presents none. -/
def get_collbox (e : Enemy) : Option CollBox :=
  if is_ghost e = false then
    some ⟨round_up e.pos - ⟨6, 6⟩, ⟨12, 12⟩⟩
  else
    none

/-- Sprite-name selector (the `sprite_name` entries of `ENEMY_VTABLE`). -/
def sprite_name (e : Enemy) (pat : Nat) : String :=
  match e.enemy_type with
  | EnemyType.Bee => ["gopher1", "gopher2"].getD pat "gopher1"
  | EnemyType.Butterfly => ["dman1", "dman2"].getD pat "dman1"
  | EnemyType.Owl =>
    let pat := if e.life ≤ 1 then pat + 2 else pat
    ["cpp11", "cpp12", "cpp21", "cpp22"].getD pat "cpp11"
  | EnemyType.CapturedFighter => "rustacean_captured"

/-- One sprite-draw command issued to the renderer. -/
structure DrawCmd where
  sprite : String
  pos : Vec2I
  angle : Int
deriving DecidableEq, Repr

/-- Modelled from the spec: tractor beam rendering (one sprite per open
segment; `tractor_beam.rs` is not in the sources). -/
def TractorBeam.draw (tb : TractorBeam) : List DrawCmd :=
  (List.range (Int.fdiv tb.size_count ONE).toNat).map fun i =>
    ⟨"beam", tb.pos + ⟨-24, (i : Int) * 16⟩, 0⟩

/-- Rendering `Enemy::draw`: a ghost renders nothing at all; otherwise the
type sprite is drawn rotated at the rounded position (offset by
`(-8, -8)`), followed by the tractor beam if present. -/
def Enemy.draw (e : Enemy) (pat : Nat) : List DrawCmd :=
  if is_ghost e then []
  else
    let sprite := sprite_name e pat
    let angle := quantize_angle e.angle ANGLE_DIV
    let pos := round_up e.pos
    ⟨sprite, pos + ⟨-8, -8⟩, angle⟩ ::
      (match e.tractor_beam with
       | some tb => TractorBeam.draw tb
       | none => [])

/-! ## Stage state machine
(`galangua-core/src/app/game/manager/stage/stage_manager.rs`) -/

inductive StageState where
  | APPEARANCE
  | NORMAL
  | RUSH
  | CLEARED
deriving DecidableEq, Repr

def RUSH_THRESHOLD : Nat := 5

/-- Stage transition check `StageManager::check_stage_state`: inert during
the appearance phase; afterwards an alive count of 0 means Cleared, a
count at or below the rush threshold means Rush, and any other count
keeps the current state. -/
def check_stage_state (s : StageState) (alive_enemy_count : Nat) : StageState :=
  if s = StageState.APPEARANCE then s
  else
    if alive_enemy_count = 0 then StageState.CLEARED
    else if alive_enemy_count ≤ RUSH_THRESHOLD then StageState.RUSH
    else s

/-- Iterated stage checks over a sequence of per-tick alive counts. -/
def run_stage_states (s : StageState) (counts : List Nat) : StageState :=
  counts.foldl check_stage_state s

/-! ## Derived observers and multi-tick runs -/

/-- Number of live escorts of an Owl: troop slots other than the
captured-fighter slot `(x, y-1)` (the counting expression of the Owl
`calc_point` entry). -/
def escort_count (e : Enemy) : Nat :=
  (e.troops.filterMap id).countP fun idx =>
    decide (idx ≠ FormationIndex.mk e.formation_index.x (e.formation_index.y - 1))

/-- External inputs the accessor can answer differently on every tick. -/
structure ExtIn where
  player_pos : Vec2I
  dual_player_pos : Option Vec2I
  can_player_capture_flag : Bool
  player_capture_completed : Bool
  rush : Bool
  rng_pick : Nat
deriving Repr

/-- Overwrite the per-tick external inputs of an accessor, keeping the
enemy arena, formation layout and stage number. -/
def set_inputs (acc : Acc) (i : ExtIn) : Acc :=
  {acc with player_pos := i.player_pos, dual_player_pos := i.dual_player_pos,
            can_player_capture_flag := i.can_player_capture_flag,
            player_capture_completed := i.player_capture_completed,
            rush := i.rush, rng_pick := i.rng_pick}

/-- Multi-tick run of one enemy's `update` under a stream of external
inputs, accumulating the pushed events. -/
def Enemy.run (e : Enemy) (acc : Acc) : List ExtIn → Enemy × Acc × List EventType
  | [] => (e, acc, [])
  | i :: rest =>
    let (e, acc, evs) := Enemy.update e (set_inputs acc i)
    let (e, acc, evs2) := Enemy.run e acc rest
    (e, acc, evs ++ evs2)

/-- Forward progression order of the stage states. -/
def stage_rank : StageState → Nat
  | StageState.APPEARANCE => 0
  | StageState.NORMAL => 1
  | StageState.RUSH => 2
  | StageState.CLEARED => 3

/-- Accessor with empty arena and inert external answers, used to
instantiate theorems at concrete states. -/
def acc0 : Acc where
  enemies := fun _ => none
  formation_pos := fun _ => ZERO_VEC
  player_pos := ZERO_VEC
  dual_player_pos := none
  can_player_capture_flag := false
  player_capture_completed := false
  rush := false
  stage_no := 0
  rng_pick := 0
  shot_pause := none

/-- Sample ghost Owl (life exhausted). -/
def sample_ghost : Enemy :=
  {Enemy.new EnemyType.Owl ⟨100 * ONE, 80 * ONE⟩ 0 0 with life := 0}

/-- Sample live Owl. -/
def sample_live : Enemy := Enemy.new EnemyType.Owl ⟨100 * ONE, 80 * ONE⟩ 0 0

/-- Sample Owl settled in Formation state. -/
def sample_owl_formation : Enemy :=
  {Enemy.new EnemyType.Owl ⟨100 * ONE, 80 * ONE⟩ 0 0 with
    state := EnemyState.Formation, formation_index := ⟨3, 2⟩}

/-- Sample attacking Owl with no escorts. -/
def sample_owl_attack0 : Enemy :=
  {Enemy.new EnemyType.Owl ⟨100 * ONE, 80 * ONE⟩ 0 0 with
    state := EnemyState.Attack, formation_index := ⟨3, 2⟩}

/-- Sample attacking Owl with two escorts (and no captured fighter). -/
def sample_owl_attack2 : Enemy :=
  {Enemy.new EnemyType.Owl ⟨100 * ONE, 80 * ONE⟩ 0 0 with
    state := EnemyState.Attack, formation_index := ⟨3, 2⟩,
    troops := [some ⟨2, 3⟩, some ⟨4, 3⟩, none]}

/-! ## Claim theorems -/

/-- C9.  Illegal state transition is fatal: requesting `Attack` through
the generic state setter `set_state` terminates the process (embedded as
the `none` result), while every other state is installed together with its
update function, without terminating. -/
theorem set_state_attack_fatal (e : Enemy) :
    set_state e EnemyState.Attack = none ∧
    set_state e EnemyState.None =
      some {e with state := EnemyState.None, update_fn := UFn.update_none} ∧
    set_state e EnemyState.Troop =
      some {e with state := EnemyState.Troop, update_fn := UFn.update_none} ∧
    set_state e EnemyState.Appearance =
      some {e with state := EnemyState.Appearance, update_fn := UFn.update_trajectory} ∧
    set_state e EnemyState.MoveToFormation =
      some {e with state := EnemyState.MoveToFormation,
                   update_fn := UFn.update_move_to_formation} ∧
    set_state e EnemyState.Assault =
      some {e with state := EnemyState.Assault, update_fn := UFn.update_assault} ∧
    set_state e EnemyState.Formation =
      some {e with state := EnemyState.Formation, update_fn := UFn.update_formation} :=
  ⟨rfl, rfl, rfl, rfl, rfl, rfl, rfl⟩

/-- C10.  Ghosts are inert at the public interface: a life-0 enemy has no
collision box and renders nothing, while a live enemy presents the 12-by-12
box whose top-left is the rounded position minus `(6, 6)`. -/
theorem ghost_inert_interface (e : Enemy) (pat : Nat) :
    (e.life = 0 → get_collbox e = none ∧ Enemy.draw e pat = []) ∧
    (0 < e.life → get_collbox e = some ⟨round_up e.pos - ⟨6, 6⟩, ⟨12, 12⟩⟩) := by
  constructor
  · intro h
    constructor
    · simp [get_collbox, is_ghost, h]
    · simp [Enemy.draw, is_ghost, h]
  · intro h
    have hne : e.life ≠ 0 := Nat.pos_iff_ne_zero.mp h
    simp [get_collbox, is_ghost, hne]

/-- Witness for C10 at a concrete ghost and a concrete live Owl. -/
theorem ghost_inert_interface_witness :
    get_collbox sample_ghost = none ∧ Enemy.draw sample_ghost 0 = [] ∧
    get_collbox sample_live = some ⟨round_up sample_live.pos - ⟨6, 6⟩, ⟨12, 12⟩⟩ :=
  ⟨((ghost_inert_interface sample_ghost 0).1 rfl).1,
   ((ghost_inert_interface sample_ghost 0).1 rfl).2,
   (ghost_inert_interface sample_live 0).2 (by decide)⟩

/-- C3.  Owl point value: in Formation state the payout is 150; outside
Formation state it is `400 * 2^k` for `k` live escorts (troop slots other
than the captured-fighter slot `(x, y-1)`), so destroying escorts first
strictly lowers the eventual payout. -/
theorem owl_point_doubles_per_escort :
    (∀ e : Enemy, e.enemy_type = EnemyType.Owl → e.state = EnemyState.Formation →
       calc_point e = 150) ∧
    (∀ e : Enemy, e.enemy_type = EnemyType.Owl → e.state ≠ EnemyState.Formation →
       calc_point e = 2 ^ escort_count e * 400) ∧
    (∀ e1 e2 : Enemy,
       e1.enemy_type = EnemyType.Owl → e2.enemy_type = EnemyType.Owl →
       e1.state ≠ EnemyState.Formation → e2.state ≠ EnemyState.Formation →
       escort_count e1 < escort_count e2 → calc_point e1 < calc_point e2) := by
  have hpt : ∀ e : Enemy, e.enemy_type = EnemyType.Owl →
      e.state ≠ EnemyState.Formation → calc_point e = 2 ^ escort_count e * 400 := by
    intro e h1 h2
    simp [calc_point, h1, h2, escort_count, Nat.shiftLeft_eq]
  refine ⟨?_, hpt, ?_⟩
  · intro e h1 h2
    simp [calc_point, h1, h2]
  · intro e1 e2 h1 h2 hs1 hs2 hlt
    rw [hpt e1 h1 hs1, hpt e2 h2 hs2]
    have : (2 : Nat) ^ escort_count e1 < 2 ^ escort_count e2 :=
      Nat.pow_lt_pow_right (by norm_num) hlt
    exact Nat.mul_lt_mul_of_lt_of_le this (Nat.le_refl 400) (by norm_num)

/-- Witness for C3 at concrete Owls: 150 in formation, 400 with no
escorts, 1600 with two escorts, and strict monotonicity between the two
attack configurations. -/
theorem owl_point_doubles_per_escort_witness :
    calc_point sample_owl_formation = 150 ∧
    calc_point sample_owl_attack2 = 2 ^ escort_count sample_owl_attack2 * 400 ∧
    calc_point sample_owl_attack0 < calc_point sample_owl_attack2 :=
  ⟨owl_point_doubles_per_escort.1 sample_owl_formation rfl rfl,
   owl_point_doubles_per_escort.2.1 sample_owl_attack2 rfl (by decide),
   owl_point_doubles_per_escort.2.2 sample_owl_attack0 sample_owl_attack2 rfl rfl
     (by decide) (by decide) (by decide)⟩

/-- C4.  Stage state machine: after the appearance phase, the check turns
Normal into Rush exactly for alive counts in `1..5` and into Cleared
exactly at count 0; Rush never falls back to Normal; the progression is
forward-only under the within-stage invariant that a Cleared stage has
count 0; and the alive-count sequence `[12, 6, 5, 0]` passes through
Normal, Normal, Rush, Cleared exactly at the threshold crossings. -/
theorem stage_state_thresholds :
    (∀ n, check_stage_state StageState.NORMAL n = StageState.CLEARED ↔ n = 0) ∧
    (∀ n, check_stage_state StageState.NORMAL n = StageState.RUSH ↔
       1 ≤ n ∧ n ≤ RUSH_THRESHOLD) ∧
    (∀ n, check_stage_state StageState.RUSH n = StageState.CLEARED ↔ n = 0) ∧
    (∀ n, check_stage_state StageState.RUSH n ≠ StageState.NORMAL) ∧
    (∀ s n, s ≠ StageState.APPEARANCE → (s = StageState.CLEARED → n = 0) →
       stage_rank s ≤ stage_rank (check_stage_state s n) ∧
       (check_stage_state s n = StageState.CLEARED → n = 0)) ∧
    (run_stage_states StageState.NORMAL [12] = StageState.NORMAL ∧
     run_stage_states StageState.NORMAL [12, 6] = StageState.NORMAL ∧
     run_stage_states StageState.NORMAL [12, 6, 5] = StageState.RUSH ∧
     run_stage_states StageState.NORMAL [12, 6, 5, 0] = StageState.CLEARED) := by
  refine ⟨?_, ?_, ?_, ?_, ?_, by decide, by decide, by decide, by decide⟩
  · intro n
    unfold check_stage_state RUSH_THRESHOLD
    split_ifs <;> simp_all
  · intro n
    unfold check_stage_state RUSH_THRESHOLD
    split_ifs <;> simp_all <;> omega
  · intro n
    unfold check_stage_state RUSH_THRESHOLD
    split_ifs <;> simp_all
  · intro n
    unfold check_stage_state RUSH_THRESHOLD
    split_ifs <;> simp_all
  · intro s n hs hinv
    cases s <;>
      simp_all [check_stage_state, stage_rank, RUSH_THRESHOLD] <;>
      split_ifs <;> simp_all [stage_rank]

/-- Witness for C4 at a concrete Rush stage with 7 alive enemies. -/
theorem stage_state_thresholds_witness :
    stage_rank StageState.RUSH ≤ stage_rank (check_stage_state StageState.RUSH 7) ∧
    (check_stage_state StageState.RUSH 7 = StageState.CLEARED → (7 : Nat) = 0) := by
  have h := stage_state_thresholds.2.2.2.2.1 StageState.RUSH 7 (by decide) (by decide)
  exact ⟨h.1, h.2⟩

/-- C6.  Attack shot cadence: `update_attack` advances the attack frame
counter by one, and pushes shots exactly when the new counter value is one
of the first `shot_count` positive multiples of the interval, where
`shot_count = min (2 + stage/8) 5` and `interval = 20 - 2*shot_count`;
when it fires, the first shot comes from the enemy's own position. -/
theorem attack_shot_cadence (e : Enemy) (acc : Acc) :
    (update_attack e acc).1.attack_frame_count = e.attack_frame_count + 1 ∧
    ((update_attack e acc).2 ≠ [] ↔
      ∃ k, 1 ≤ k ∧ k ≤ min (2 + acc.stage_no / 8) 5 ∧
        e.attack_frame_count + 1 = k * (20 - min (2 + acc.stage_no / 8) 5 * 2)) ∧
    ((update_attack e acc).2 ≠ [] →
      (update_attack e acc).2.head? = some (EventType.EneShot e.pos)) := by
  have hs5 : min (2 + acc.stage_no / 8) 5 ≤ 5 := Nat.min_le_right _ _
  have hs2 : 2 ≤ min (2 + acc.stage_no / 8) 5 :=
    le_min (Nat.le_add_right 2 _) (by norm_num)
  have key : (e.attack_frame_count + 1 ≤
        (20 - min (2 + acc.stage_no / 8) 5 * 2) * min (2 + acc.stage_no / 8) 5 ∧
        (e.attack_frame_count + 1) % (20 - min (2 + acc.stage_no / 8) 5 * 2) = 0) ↔
      ∃ k, 1 ≤ k ∧ k ≤ min (2 + acc.stage_no / 8) 5 ∧
        e.attack_frame_count + 1 = k * (20 - min (2 + acc.stage_no / 8) 5 * 2) := by
    set s := min (2 + acc.stage_no / 8) 5 with hs
    set c := e.attack_frame_count + 1 with hc
    set I := 20 - s * 2 with hIdef
    constructor
    · rintro ⟨h1, h2⟩
      have hdvd : I ∣ c := Nat.dvd_of_mod_eq_zero h2
      have heq : c / I * I = c := Nat.div_mul_cancel hdvd
      refine ⟨c / I, ?_, ?_, heq.symm⟩
      · rcases Nat.eq_zero_or_pos (c / I) with h0 | h0
        · rw [h0, Nat.zero_mul] at heq
          omega
        · exact h0
      · have hle : c / I * I ≤ s * I := by
          rw [heq, Nat.mul_comm s I]
          exact h1
        exact Nat.le_of_mul_le_mul_right hle (by omega)
    · rintro ⟨k, hk1, hks, hck⟩
      constructor
      · rw [hck, Nat.mul_comm I s]
        exact Nat.mul_le_mul_right I hks
      · rw [hck]
        exact Nat.mul_mod_left k I
  refine ⟨?_, ?_, ?_⟩
  · simp only [update_attack]
    split_ifs <;> rfl
  · rw [← key]
    simp only [update_attack]
    split_ifs with h
    · simpa using h
    · simpa using h
  · intro hne
    simp only [update_attack] at hne ⊢
    split_ifs at hne ⊢ with h
    · rfl
    · simp at hne

/-- Witness for C6: on stage 0 (2 shots, interval 16), the 16th attack
frame fires and the first shot comes from the enemy's position. -/
theorem attack_shot_cadence_witness :
    (update_attack {sample_owl_attack0 with attack_frame_count := 15} acc0).2 ≠ [] ∧
    (update_attack {sample_owl_attack0 with attack_frame_count := 15} acc0).2.head? =
      some (EventType.EneShot {sample_owl_attack0 with attack_frame_count := 15}.pos) := by
  have h := attack_shot_cadence {sample_owl_attack0 with attack_frame_count := 15} acc0
  have hfire : (update_attack {sample_owl_attack0 with attack_frame_count := 15} acc0).2 ≠ [] := by
    rw [h.2.1]
    exact ⟨1, by decide, by decide, by decide⟩
  exact ⟨hfire, h.2.2 hfire⟩

/-! ### Troop propagation lemmas (for C5) -/

lemma filterMap_id_cons_none (tl : List (Option FormationIndex)) :
    ((none : Option FormationIndex) :: tl).filterMap id = tl.filterMap id := by
  simp

lemma filterMap_id_cons_some (a : FormationIndex) (tl : List (Option FormationIndex)) :
    (some a :: tl).filterMap id = a :: tl.filterMap id := by
  simp

lemma update_troops_cons_none (tl : List (Option FormationIndex))
    (add : Vec2I) (angle_opt : Option Int) (m : EnemyMap) :
    update_troops (none :: tl) add angle_opt m = update_troops tl add angle_opt m := rfl

lemma update_troops_cons_some_miss (a : FormationIndex) (tl : List (Option FormationIndex))
    (add : Vec2I) (angle_opt : Option Int) (m : EnemyMap) (h : m a = none) :
    update_troops (some a :: tl) add angle_opt m = update_troops tl add angle_opt m := by
  simp [update_troops, h]

lemma update_troops_cons_some_hit (a : FormationIndex) (tl : List (Option FormationIndex))
    (add : Vec2I) (angle_opt : Option Int) (m : EnemyMap) (troop : Enemy)
    (h : m a = some troop) :
    update_troops (some a :: tl) add angle_opt m =
      update_troops tl add angle_opt (map_set m a (update_troop troop add angle_opt)) := by
  simp [update_troops, h]

lemma map_set_ne (m : EnemyMap) (a fi : FormationIndex) (x : Enemy) (h : fi ≠ a) :
    map_set m a x fi = m fi := by
  simp [map_set, h]

lemma update_troops_not_referenced (troops : List (Option FormationIndex))
    (add : Vec2I) (angle_opt : Option Int) :
    ∀ (m : EnemyMap) (fi : FormationIndex), fi ∉ troops.filterMap id →
      update_troops troops add angle_opt m fi = m fi := by
  induction troops with
  | nil => intro m fi _; rfl
  | cons hd tl ih =>
    intro m fi h
    match hd with
    | none =>
      rw [filterMap_id_cons_none] at h
      rw [update_troops_cons_none]
      exact ih m fi h
    | some a =>
      rw [filterMap_id_cons_some, List.mem_cons] at h
      push_neg at h
      obtain ⟨hne, htl⟩ := h
      cases hma : m a with
      | none =>
        rw [update_troops_cons_some_miss a tl add angle_opt m hma]
        exact ih m fi htl
      | some troop =>
        rw [update_troops_cons_some_hit a tl add angle_opt m troop hma]
        rw [ih _ fi htl]
        exact map_set_ne m a fi _ hne

lemma update_troops_missing (troops : List (Option FormationIndex))
    (add : Vec2I) (angle_opt : Option Int) :
    ∀ (m : EnemyMap) (fi : FormationIndex), m fi = none →
      update_troops troops add angle_opt m fi = none := by
  induction troops with
  | nil => intro m fi h; exact h
  | cons hd tl ih =>
    intro m fi h
    match hd with
    | none =>
      rw [update_troops_cons_none]
      exact ih m fi h
    | some a =>
      cases hma : m a with
      | none =>
        rw [update_troops_cons_some_miss a tl add angle_opt m hma]
        exact ih m fi h
      | some troop =>
        have hne : fi ≠ a := fun hc => by rw [hc, hma] at h; exact Option.noConfusion h
        rw [update_troops_cons_some_hit a tl add angle_opt m troop hma]
        refine ih _ fi ?_
        rw [map_set_ne m a fi _ hne]
        exact h

lemma update_troops_once (troops : List (Option FormationIndex))
    (add : Vec2I) (angle_opt : Option Int) :
    ∀ (m : EnemyMap) (fi : FormationIndex) (t : Enemy),
      (troops.filterMap id).count fi = 1 → m fi = some t →
      update_troops troops add angle_opt m fi = some (update_troop t add angle_opt) := by
  induction troops with
  | nil => intro m fi t h _; simp at h
  | cons hd tl ih =>
    intro m fi t h hm
    match hd with
    | none =>
      rw [filterMap_id_cons_none] at h
      rw [update_troops_cons_none]
      exact ih m fi t h hm
    | some a =>
      rw [filterMap_id_cons_some] at h
      by_cases hfa : fi = a
      · subst hfa
        rw [List.count_cons_self] at h
        have hnotin : fi ∉ tl.filterMap id := by
          rw [← List.count_eq_zero]
          omega
        rw [update_troops_cons_some_hit fi tl add angle_opt m t hm]
        rw [update_troops_not_referenced tl add angle_opt _ fi hnotin]
        simp [map_set]
      · rw [List.count_cons_of_ne hfa] at h
        cases hma : m a with
        | none =>
          rw [update_troops_cons_some_miss a tl add angle_opt m hma]
          exact ih m fi t h hm
        | some troop =>
          rw [update_troops_cons_some_hit a tl add angle_opt m troop hma]
          refine ih _ fi t h ?_
          rw [map_set_ne m a fi _ hfa]
          exact hm

/-- C5.  Troop following: a troop-member update adds exactly the leader's
delta and overwrites the angle exactly when an absolute angle is supplied;
within `update_troops`, a reference occurring once and resolving to a live
troop receives exactly that update, unresolved references are skipped
(the slot stays empty and nothing else changes), unreferenced arena
entries are untouched; and the per-tick `Enemy.update` invokes the
propagation with the leader's same-tick position delta and — exactly when
`copy_angle_to_troops` is set — the leader's absolute angle. -/
theorem troop_following :
    (∀ (t : Enemy) (add : Vec2I) (a : Int),
       (update_troop t add (some a)).pos = t.pos + add ∧
       (update_troop t add (some a)).angle = a) ∧
    (∀ (t : Enemy) (add : Vec2I),
       (update_troop t add none).pos = t.pos + add ∧
       (update_troop t add none).angle = t.angle) ∧
    (∀ (troops : List (Option FormationIndex)) (add : Vec2I) (angle_opt : Option Int)
       (m : EnemyMap) (fi : FormationIndex) (t : Enemy),
       (troops.filterMap id).count fi = 1 → m fi = some t →
       update_troops troops add angle_opt m fi = some (update_troop t add angle_opt)) ∧
    (∀ (troops : List (Option FormationIndex)) (add : Vec2I) (angle_opt : Option Int)
       (m : EnemyMap) (fi : FormationIndex), m fi = none →
       update_troops troops add angle_opt m fi = none) ∧
    (∀ (troops : List (Option FormationIndex)) (add : Vec2I) (angle_opt : Option Int)
       (m : EnemyMap) (fi : FormationIndex), fi ∉ troops.filterMap id →
       update_troops troops add angle_opt m fi = m fi) ∧
    (∀ (e : Enemy) (acc : Acc),
       (Enemy.update e acc).2.1.enemies =
         update_troops (run_update_fn e.update_fn e acc).1.troops
           ((Enemy.update e acc).1.pos - e.pos)
           (if (run_update_fn e.update_fn e acc).1.copy_angle_to_troops then
              some (Enemy.update e acc).1.angle
            else none)
           (run_update_fn e.update_fn e acc).2.1.enemies) := by
  refine ⟨?_, ?_, ?_, ?_, ?_, ?_⟩
  · intro t add a; exact ⟨rfl, rfl⟩
  · intro t add; exact ⟨rfl, rfl⟩
  · intro troops add angle_opt m fi t h1 h2
    exact update_troops_once troops add angle_opt m fi t h1 h2
  · intro troops add angle_opt m fi h
    exact update_troops_missing troops add angle_opt m fi h
  · intro troops add angle_opt m fi h
    exact update_troops_not_referenced troops add angle_opt m fi h
  · intro e acc
    rcases hu : run_update_fn e.update_fn e acc with ⟨e1, acc1, evs⟩
    simp only [Enemy.update, hu]
    split_ifs <;> rfl

/-- Witness for C5: a formation-pinned leader with one live troop, one
stale troop reference, and one unreferenced bystander. -/
theorem troop_following_witness :
    update_troops [some ⟨2, 3⟩, some ⟨4, 3⟩, none] ⟨ONE, 0⟩ (some 7)
        (fun j => if j = ⟨2, 3⟩ then some sample_live else none) ⟨2, 3⟩ =
      some (update_troop sample_live ⟨ONE, 0⟩ (some 7)) ∧
    update_troops [some ⟨2, 3⟩, some ⟨4, 3⟩, none] ⟨ONE, 0⟩ (some 7)
        (fun j => if j = ⟨2, 3⟩ then some sample_live else none) ⟨4, 3⟩ = none ∧
    update_troops [some ⟨2, 3⟩, some ⟨4, 3⟩, none] ⟨ONE, 0⟩ (some 7)
        (fun j => if j = ⟨2, 3⟩ then some sample_live else none) ⟨0, 0⟩ =
      (fun j => if j = (⟨2, 3⟩ : FormationIndex) then some sample_live else none)
        (⟨0, 0⟩ : FormationIndex) :=
  ⟨troop_following.2.2.1 _ _ _ _ _ sample_live (by decide) (by decide),
   troop_following.2.2.2.1 _ _ _ _ _ (by decide),
   troop_following.2.2.2.2.1 _ _ _ _ _ (by decide)⟩

/-! ### Ghost invariant lemmas (for C2) -/

lemma live_troops_congr (e e' : Enemy) (m : EnemyMap) (h : e.troops = e'.troops) :
    live_troops e m = live_troops e' m := by
  simp [live_troops, h]

lemma ghost_check (X : Enemy) (M : EnemyMap) (hl : X.life = 0) (hd : X.disappeared = false) :
    (if is_ghost X ∧ X.disappeared = false ∧ live_troops X M = false then
        {X with disappeared := true}
      else X).disappeared =
      !live_troops
        (if is_ghost X ∧ X.disappeared = false ∧ live_troops X M = false then
            {X with disappeared := true}
          else X) M := by
  split_ifs with h
  · have hlt := h.2.2
    have hcg : live_troops {X with disappeared := true} M = live_troops X M :=
      live_troops_congr _ X M rfl
    simp [hcg, hlt]
  · have hA : is_ghost X = true := by simp [is_ghost, hl]
    have hC : live_troops X M = true := by
      by_contra hC
      exact h ⟨hA, hd, by revert hC; cases live_troops X M <;> simp⟩
    simp [hd, hC]

/-- C2.  Ghost invariant: lethal damage on an Owl that still has a live
non-captured troop reports `killed = false` and leaves the disappeared
flag untouched (the Owl becomes a life-0 ghost); a ghost whose state
update function changes neither life nor the disappeared flag ends the
tick disappeared exactly when no live non-captured troop remains; and
`set_to_formation` on a ghost marks it disappeared. -/
theorem ghost_owl_invariant :
    (∀ (e : Enemy) (power : Nat) (acc : Acc),
       e.enemy_type = EnemyType.Owl → e.life ≤ power →
       live_troops e acc.enemies = true →
       (Enemy.set_damage e power acc).2.2.1.killed = false ∧
       (Enemy.set_damage e power acc).1.disappeared = e.disappeared ∧
       (Enemy.set_damage e power acc).1.life = 0) ∧
    (∀ (e : Enemy) (acc : Acc),
       e.life = 0 → e.disappeared = false →
       (run_update_fn e.update_fn e acc).1.life = e.life →
       (run_update_fn e.update_fn e acc).1.disappeared = e.disappeared →
       (Enemy.update e acc).1.disappeared =
         !live_troops (Enemy.update e acc).1 (Enemy.update e acc).2.1.enemies) ∧
    (∀ e : Enemy, e.life = 0 → (set_to_formation e).disappeared = true) := by
  refine ⟨?_, ?_, ?_⟩
  · intro e power acc hty hle hlt
    have hnl : ¬ power < e.life := by omega
    have hk : live_troops {e with enemy_type := EnemyType.Owl, life := 0} acc.enemies = true :=
      (live_troops_congr _ e _ rfl).trans hlt
    simp only [Enemy.set_damage, hty, owl_set_damage, if_neg hnl]
    split_ifs <;> simp [hk]
  · intro e acc hlife hdis hulife hudis
    rcases hu : run_update_fn e.update_fn e acc with ⟨e1, acc1, evs⟩
    rw [hu] at hulife hudis
    simp only at hulife hudis
    rw [hlife] at hulife
    rw [hdis] at hudis
    simp only [Enemy.update, hu]
    exact ghost_check _ _ hulife hudis
  · intro e h
    simp [set_to_formation, set_stateD, set_state, state_update_fn, is_ghost, h]

/-- Sample ghost Owl leading a live escort, mid-attack. -/
def sample_ghost_leader : Enemy :=
  {sample_owl_attack2 with life := 0, update_fn := UFn.update_attack_traj}

/-- Accessor whose arena holds one live escort at slot `(2, 3)`. -/
def acc_with_escort : Acc :=
  {acc0 with enemies := fun j => if j = ⟨2, 3⟩ then some sample_live else none}

/-- Witness for C2: lethal damage on an escorted Owl reports unkilled, the
ghost's next update keeps it present exactly while the escort lives, and
`set_to_formation` on the ghost marks it disappeared. -/
theorem ghost_owl_invariant_witness :
    (Enemy.set_damage sample_owl_attack2 2 acc_with_escort).2.2.1.killed = false ∧
    (Enemy.update sample_ghost_leader acc_with_escort).1.disappeared =
      !live_troops (Enemy.update sample_ghost_leader acc_with_escort).1
        (Enemy.update sample_ghost_leader acc_with_escort).2.1.enemies ∧
    (set_to_formation sample_ghost_leader).disappeared = true :=
  ⟨(ghost_owl_invariant.1 sample_owl_attack2 2 acc_with_escort rfl (by decide) (by decide)).1,
   ghost_owl_invariant.2.1 sample_ghost_leader acc_with_escort rfl rfl (by decide) (by decide),
   ghost_owl_invariant.2.2 sample_ghost_leader rfl⟩

/-! ### MoveToFormation observers and lemmas (for C7) -/

/-- Difference from the enemy to its formation-slot target. -/
def formation_diff (e : Enemy) (acc : Acc) : Vec2I :=
  acc.formation_pos e.formation_index - e.pos

/-- The shifted squared distance computed by `update_move_to_formation`. -/
def formation_sq_distance (e : Enemy) (acc : Acc) : Int :=
  square (asr (formation_diff e acc).x (ONE_BIT / 2)) +
    square (asr (formation_diff e acc).y (ONE_BIT / 2))

/-- The speed-derived turn limit `speed * 5 / 3`. -/
def turn_limit (e : Enemy) : Int := Int.tdiv (e.speed * 5) 3

/-- The bearing from the enemy toward its formation-slot target. -/
def formation_bearing (e : Enemy) (acc : Acc) : Int :=
  atan2_lut (-(formation_diff e acc).y) (formation_diff e acc).x

lemma clamp_bounds (x lo hi : Int) (h : lo ≤ hi) :
    lo ≤ clamp x lo hi ∧ clamp x lo hi ≤ hi := by
  unfold clamp
  split_ifs <;> omega

lemma set_to_formation_fields (e : Enemy) :
    (set_to_formation e).pos = e.pos ∧ (set_to_formation e).speed = 0 ∧
    (set_to_formation e).vangle = 0 ∧
    (set_to_formation e).state = EnemyState.Formation ∧
    (set_to_formation e).update_fn = UFn.update_formation ∧
    (set_to_formation e).troops = e.troops ∧
    (set_to_formation e).angle = normalize_angle e.angle := by
  simp only [set_to_formation, set_stateD, set_state, state_update_fn]
  split_ifs <;> simp

/-- C7.  MoveToFormation step: while the shifted squared distance to the
formation target exceeds the shifted squared speed, the tick corrects only
the heading — the angle moves by the difference toward the target bearing
clamped to `turn_limit = speed * 5 / 3`, the angular velocity is zeroed,
and speed, position and state are untouched; on the first tick at or
inside that distance, the position is pinned to the target, the speed is
set to 0, and the enemy transitions to Formation state. -/
theorem move_to_formation_step_behavior (e : Enemy) (acc : Acc) :
    (square (asr e.speed (ONE_BIT / 2)) < formation_sq_distance e acc →
      (update_move_to_formation e acc).1.angle =
        e.angle + clamp (diff_angle (formation_bearing e acc) e.angle)
          (-turn_limit e) (turn_limit e) ∧
      (update_move_to_formation e acc).1.vangle = 0 ∧
      (update_move_to_formation e acc).1.speed = e.speed ∧
      (update_move_to_formation e acc).1.pos = e.pos ∧
      (update_move_to_formation e acc).1.state = e.state ∧
      (update_move_to_formation e acc).2.1 = acc ∧
      (0 ≤ e.speed →
        |(update_move_to_formation e acc).1.angle - e.angle| ≤ turn_limit e)) ∧
    (formation_sq_distance e acc ≤ square (asr e.speed (ONE_BIT / 2)) →
      (update_move_to_formation e acc).1.pos = acc.formation_pos e.formation_index ∧
      (update_move_to_formation e acc).1.speed = 0 ∧
      (update_move_to_formation e acc).1.state = EnemyState.Formation ∧
      (update_move_to_formation e acc).1.update_fn = UFn.update_formation) := by
  constructor
  · intro h
    unfold formation_sq_distance formation_diff at h
    have heq : update_move_to_formation e acc =
        ({e with angle := e.angle + clamp (diff_angle (formation_bearing e acc) e.angle) (-turn_limit e) (turn_limit e), vangle := 0}, acc, []) := by
      unfold update_move_to_formation update_move_to_formation_step
        formation_bearing formation_diff turn_limit
      rw [if_pos h]
      rfl
    rw [heq]
    refine ⟨rfl, rfl, rfl, rfl, rfl, rfl, ?_⟩
    intro hs
    have hlim : 0 ≤ turn_limit e := Int.tdiv_nonneg (by positivity) (by norm_num)
    have hb := clamp_bounds (diff_angle (formation_bearing e acc) e.angle)
      (-turn_limit e) (turn_limit e) (by omega)
    show |e.angle + clamp (diff_angle (formation_bearing e acc) e.angle)
        (-turn_limit e) (turn_limit e) - e.angle| ≤ turn_limit e
    rw [abs_le]
    constructor <;> omega
  · intro h
    have hnc : ¬ (square (asr e.speed (ONE_BIT / 2)) <
        square (asr (acc.formation_pos e.formation_index - e.pos).x (ONE_BIT / 2)) +
        square (asr (acc.formation_pos e.formation_index - e.pos).y (ONE_BIT / 2))) := by
      unfold formation_sq_distance formation_diff at h
      omega
    have heq2 : update_move_to_formation e acc =
        (set_to_formation (release_troops {e with pos := acc.formation_pos e.formation_index, speed := 0, capturing_state := CapturingState.None} acc.enemies).1, {acc with enemies := (release_troops {e with pos := acc.formation_pos e.formation_index, speed := 0, capturing_state := CapturingState.None} acc.enemies).2}, []) := by
      unfold update_move_to_formation update_move_to_formation_step
      rw [if_neg hnc]
      rfl
    rw [heq2]
    refine ⟨?_, ?_, ?_, ?_⟩
    · rw [(set_to_formation_fields _).1]
      rfl
    · exact (set_to_formation_fields _).2.1
    · exact (set_to_formation_fields _).2.2.2.1
    · exact (set_to_formation_fields _).2.2.2.2.1

/-- Sample enemy far from its formation slot, in MoveToFormation state. -/
def sample_mtf_far : Enemy :=
  {Enemy.new EnemyType.Owl ⟨100 * ONE, 200 * ONE⟩ 0 (2 * ONE) with
    state := EnemyState.MoveToFormation, update_fn := UFn.update_move_to_formation,
    formation_index := ⟨3, 2⟩}

/-- Sample enemy within arrival distance of its formation slot. -/
def sample_mtf_near : Enemy :=
  {Enemy.new EnemyType.Owl ⟨ONE / 2, 0⟩ 0 (2 * ONE) with
    state := EnemyState.MoveToFormation, update_fn := UFn.update_move_to_formation,
    formation_index := ⟨3, 2⟩}

/-- Witness for C7: the far enemy keeps speed and position and zeroes its
angular velocity; the near enemy is pinned to the target in Formation
state. -/
theorem move_to_formation_step_behavior_witness :
    (update_move_to_formation sample_mtf_far acc0).1.vangle = 0 ∧
    (update_move_to_formation sample_mtf_far acc0).1.speed = sample_mtf_far.speed ∧
    (update_move_to_formation sample_mtf_far acc0).1.pos = sample_mtf_far.pos ∧
    (update_move_to_formation sample_mtf_near acc0).1.pos =
      acc0.formation_pos sample_mtf_near.formation_index ∧
    (update_move_to_formation sample_mtf_near acc0).1.state = EnemyState.Formation :=
  ⟨((move_to_formation_step_behavior sample_mtf_far acc0).1 (by decide)).2.1,
   ((move_to_formation_step_behavior sample_mtf_far acc0).1 (by decide)).2.2.1,
   ((move_to_formation_step_behavior sample_mtf_far acc0).1 (by decide)).2.2.2.1,
   ((move_to_formation_step_behavior sample_mtf_near acc0).2 (by decide)).1,
   ((move_to_formation_step_behavior sample_mtf_near acc0).2 (by decide)).2.2.1⟩

/-! ### Capture protocol lemmas (for C1) -/

lemma vec2i_add (a b : Vec2I) : a + b = ⟨a.x + b.x, a.y + b.y⟩ := rfl

lemma vec2i_sub (a b : Vec2I) : a - b = ⟨a.x - b.x, a.y - b.y⟩ := rfl

lemma vec2i_add_zero (v : Vec2I) : v + ZERO_VEC = v := by
  cases v
  simp [vec2i_add, ZERO_VEC]

lemma calc_velocity_zero (a : Int) : calc_velocity a 0 = ZERO_VEC := by
  unfold calc_velocity ZERO_VEC
  simp

lemma update_troop_zero (t : Enemy) : update_troop t ZERO_VEC none = t := by
  unfold update_troop
  simp [vec2i_add_zero]

/-- Projections of `Enemy.update` that the integration step and the
end-of-tick bookkeeping never touch: they come straight from the state
update function's result. -/
lemma update_outer_fields (e : Enemy) (acc : Acc) :
    (Enemy.update e acc).1.update_fn = (run_update_fn e.update_fn e acc).1.update_fn ∧
    (Enemy.update e acc).2.2 = (run_update_fn e.update_fn e acc).2.2 ∧
    (Enemy.update e acc).1.count = (run_update_fn e.update_fn e acc).1.count ∧
    (Enemy.update e acc).1.speed = (run_update_fn e.update_fn e acc).1.speed ∧
    (Enemy.update e acc).1.state = (run_update_fn e.update_fn e acc).1.state ∧
    (Enemy.update e acc).1.troops = (run_update_fn e.update_fn e acc).1.troops ∧
    (Enemy.update e acc).1.capturing_state =
      (run_update_fn e.update_fn e acc).1.capturing_state := by
  rcases hu : run_update_fn e.update_fn e acc with ⟨e1, acc1, evs⟩
  simp only [Enemy.update, hu]
  split_ifs <;> simp

/-- The captured-fighter slot of an Owl: one row above its own slot. -/
def capfi (e : Enemy) : FormationIndex :=
  ⟨e.formation_index.x, e.formation_index.y - 1⟩

lemma beam_capture_tick (e : Enemy) (acc : Acc) (tb : TractorBeam)
    (hf : e.update_fn = UFn.update_attack_capture_beam)
    (htb : e.tractor_beam = some tb)
    (hcl : TractorBeam.closed tb = false)
    (hcc : acc.can_player_capture_flag = true)
    (hcan : TractorBeam.can_capture tb acc.player_pos = true) :
    run_update_fn e.update_fn e acc =
      ({e with tractor_beam := some (TractorBeam.start_capture tb), capturing_state := CapturingState.BeamTracting, update_fn := UFn.update_attack_capture_start, count := 0}, acc,
       [EventType.CapturePlayer (e.pos + ⟨0, 16 * ONE⟩)]) := by
  rw [hf]
  show update_attack_capture_beam e acc = _
  unfold update_attack_capture_beam
  rw [htb]
  simp [hcl, hcc, hcan]

lemma close_beam_tick (e : Enemy) (acc : Acc) (tb : TractorBeam)
    (hf : e.update_fn = UFn.update_attack_capture_close_beam)
    (htb : e.tractor_beam = some tb)
    (hcl : TractorBeam.closed tb = true)
    (htr : e.troops = [none, none, none]) :
    run_update_fn e.update_fn e acc =
      ({e with troops := [some (capfi e), none, none], tractor_beam := none, capturing_state := CapturingState.Attacking, copy_angle_to_troops := false, update_fn := UFn.update_attack_capture_capture_done_wait, count := 0}, acc,
       [EventType.SpawnCapturedFighter (e.pos + ⟨0, 16 * ONE⟩) (capfi e),
        EventType.CapturePlayerCompleted]) := by
  rw [hf]
  show update_attack_capture_close_beam e acc = _
  unfold update_attack_capture_close_beam
  rw [htb]
  simp [hcl, capfi, add_troop, htr, add_troop_list]

lemma done_wait_tick (e : Enemy) (acc : Acc)
    (hf : e.update_fn = UFn.update_attack_capture_capture_done_wait) :
    (Enemy.update e acc).2.2 = [] ∧
    (Enemy.update e acc).1.count = e.count + 1 ∧
    (e.count + 1 < 120 →
      (Enemy.update e acc).1.update_fn = UFn.update_attack_capture_capture_done_wait ∧
      (Enemy.update e acc).1.speed = e.speed) ∧
    (120 ≤ e.count + 1 →
      (Enemy.update e acc).1.update_fn = UFn.update_attack_capture_back ∧
      (Enemy.update e acc).1.speed = 5 * ONE / 2) := by
  have ho := update_outer_fields e acc
  rw [ho.1, ho.2.1, ho.2.2.1, ho.2.2.2.1, hf]
  simp only [run_update_fn, update_attack_capture_capture_done_wait]
  split_ifs with h
  · exact ⟨rfl, rfl, fun h2 => absurd h (by omega), fun _ => ⟨rfl, rfl⟩⟩
  · exact ⟨rfl, rfl, fun _ => ⟨hf, rfl⟩, fun h2 => absurd h2 (by omega)⟩

lemma set_to_formation_update_fn (e : Enemy) :
    (set_to_formation e).update_fn = UFn.update_formation :=
  (set_to_formation_fields e).2.2.2.2.1

lemma set_to_formation_state (e : Enemy) :
    (set_to_formation e).state = EnemyState.Formation :=
  (set_to_formation_fields e).2.2.2.1

lemma move_step_fields (e : Enemy) (acc : Acc) :
    (update_move_to_formation_step e acc).1.update_fn = e.update_fn ∧
    (update_move_to_formation_step e acc).1.troops = e.troops ∧
    (update_move_to_formation_step e acc).1.copy_angle_to_troops = e.copy_angle_to_troops := by
  simp only [update_move_to_formation_step]
  split_ifs <;> exact ⟨rfl, rfl, rfl⟩

/-- The update functions reachable after the capture has started: from
these, the Owl can never push `CapturePlayer` again. -/
def after_capture_fns : List UFn :=
  [UFn.update_attack_capture_start, UFn.update_attack_capture_close_beam,
   UFn.update_attack_capture_capture_done_wait, UFn.update_attack_capture_back,
   UFn.update_attack_capture_push_up, UFn.update_formation]

/-- The update functions reachable after the captured fighter has been
spawned: from these, the Owl pushes none of the capture-chain events
again. -/
def after_spawn_fns : List UFn :=
  [UFn.update_attack_capture_capture_done_wait, UFn.update_attack_capture_back,
   UFn.update_attack_capture_push_up, UFn.update_formation]

lemma step_after_capture (e : Enemy) (acc : Acc) (h : e.update_fn ∈ after_capture_fns) :
    (Enemy.update e acc).1.update_fn ∈ after_capture_fns ∧
    (∀ p, EventType.CapturePlayer p ∉ (Enemy.update e acc).2.2) := by
  have ho := update_outer_fields e acc
  rw [ho.1, ho.2.1]
  simp only [after_capture_fns, List.mem_cons, List.not_mem_nil, or_false] at h
  have hmem : e.update_fn ∈ after_capture_fns := by
    simp only [after_capture_fns, List.mem_cons, List.not_mem_nil, or_false]
    exact h
  rcases h with h|h|h|h|h|h <;> rw [h] <;> simp only [run_update_fn]
  · constructor
    · unfold update_attack_capture_start
      split_ifs <;> simp [after_capture_fns, h]
    · intro p
      unfold update_attack_capture_start
      split_ifs <;> simp
  · rcases htb : e.tractor_beam with _ | tb
    · constructor
      · simp [update_attack_capture_close_beam, htb, after_capture_fns, h]
      · intro p
        simp [update_attack_capture_close_beam, htb]
    · by_cases hcl : TractorBeam.closed tb
      · constructor
        · simp [update_attack_capture_close_beam, htb, hcl, after_capture_fns]
        · intro p
          simp [update_attack_capture_close_beam, htb, hcl]
      · constructor
        · simp [update_attack_capture_close_beam, htb, hcl, after_capture_fns, h]
        · intro p
          simp [update_attack_capture_close_beam, htb, hcl]
  · constructor
    · simp only [update_attack_capture_capture_done_wait]
      split_ifs <;> simp [after_capture_fns, h]
    · intro p
      simp only [update_attack_capture_capture_done_wait]
      split_ifs <;> simp
  · rcases hs : update_move_to_formation_step e acc with ⟨e1, cont⟩
    have hfn := (move_step_fields e acc).1
    rw [hs] at hfn
    simp only at hfn
    simp only [update_attack_capture_back, hs]
    cases cont
    · simp [after_capture_fns]
    · simp [after_capture_fns, hfn, h]
  · rcases hcf : acc.enemies ⟨e.formation_index.x, e.formation_index.y - 1⟩ with _ | cf
    · constructor
      · simp [update_attack_capture_push_up, hcf, after_capture_fns, h]
      · intro p
        simp [update_attack_capture_push_up, hcf]
    · constructor
      · simp only [update_attack_capture_push_up, hcf]
        split_ifs <;> simp [after_capture_fns, h, set_to_formation_update_fn]
      · intro p
        simp only [update_attack_capture_push_up, hcf]
        split_ifs <;> simp
  · constructor
    · simp [update_formation, after_capture_fns, h]
    · intro p
      simp [update_formation]

lemma step_after_spawn (e : Enemy) (acc : Acc) (h : e.update_fn ∈ after_spawn_fns) :
    (Enemy.update e acc).1.update_fn ∈ after_spawn_fns ∧
    (∀ p, EventType.CapturePlayer p ∉ (Enemy.update e acc).2.2) ∧
    (∀ p fi, EventType.SpawnCapturedFighter p fi ∉ (Enemy.update e acc).2.2) ∧
    EventType.CapturePlayerCompleted ∉ (Enemy.update e acc).2.2 := by
  have ho := update_outer_fields e acc
  rw [ho.1, ho.2.1]
  simp only [after_spawn_fns, List.mem_cons, List.not_mem_nil, or_false] at h
  rcases h with h|h|h|h <;> rw [h] <;> simp only [run_update_fn]
  · refine ⟨?_, ?_, ?_, ?_⟩
    · simp only [update_attack_capture_capture_done_wait]
      split_ifs <;> simp [after_spawn_fns, h]
    · intro p
      simp only [update_attack_capture_capture_done_wait]
      split_ifs <;> simp
    · intro p fi
      simp only [update_attack_capture_capture_done_wait]
      split_ifs <;> simp
    · simp only [update_attack_capture_capture_done_wait]
      split_ifs <;> simp
  · rcases hs : update_move_to_formation_step e acc with ⟨e1, cont⟩
    have hfn := (move_step_fields e acc).1
    rw [hs] at hfn
    simp only at hfn
    simp only [update_attack_capture_back, hs]
    cases cont
    · simp [after_spawn_fns]
    · simp [after_spawn_fns, hfn, h]
  · rcases hcf : acc.enemies ⟨e.formation_index.x, e.formation_index.y - 1⟩ with _ | cf
    · refine ⟨?_, ?_, ?_, ?_⟩ <;> simp [update_attack_capture_push_up, hcf, after_spawn_fns, h]
    · refine ⟨?_, ?_, ?_, ?_⟩
      · simp only [update_attack_capture_push_up, hcf]
        split_ifs <;> simp [after_spawn_fns, h, set_to_formation_update_fn]
      · intro p
        simp only [update_attack_capture_push_up, hcf]
        split_ifs <;> simp
      · intro p fi
        simp only [update_attack_capture_push_up, hcf]
        split_ifs <;> simp
      · simp only [update_attack_capture_push_up, hcf]
        split_ifs <;> simp
  · refine ⟨?_, ?_, ?_, ?_⟩ <;> simp [update_formation, after_spawn_fns, h]

lemma run_after_capture (ins : List ExtIn) :
    ∀ (e : Enemy) (acc : Acc), e.update_fn ∈ after_capture_fns →
      ∀ p, EventType.CapturePlayer p ∉ (Enemy.run e acc ins).2.2 := by
  induction ins with
  | nil =>
    intro e acc _ p
    simp [Enemy.run]
  | cons i rest ih =>
    intro e acc h p
    have hstep := step_after_capture e (set_inputs acc i)
    rcases hu : Enemy.update e (set_inputs acc i) with ⟨e1, acc1, evs⟩
    rw [hu] at hstep
    simp only at hstep
    simp only [Enemy.run, hu]
    rcases hr : Enemy.run e1 acc1 rest with ⟨e2, acc2, evs2⟩
    have hih := ih e1 acc1 (hstep h).1 p
    rw [hr] at hih
    simp only at hih ⊢
    simp [List.mem_append]
    exact ⟨fun hc => (hstep h).2 p hc, fun hc => hih hc⟩

lemma run_after_spawn (ins : List ExtIn) :
    ∀ (e : Enemy) (acc : Acc), e.update_fn ∈ after_spawn_fns →
      (∀ p, EventType.CapturePlayer p ∉ (Enemy.run e acc ins).2.2) ∧
      (∀ p fi, EventType.SpawnCapturedFighter p fi ∉ (Enemy.run e acc ins).2.2) ∧
      EventType.CapturePlayerCompleted ∉ (Enemy.run e acc ins).2.2 := by
  induction ins with
  | nil =>
    intro e acc _
    simp [Enemy.run]
  | cons i rest ih =>
    intro e acc h
    have hstep := step_after_spawn e (set_inputs acc i)
    rcases hu : Enemy.update e (set_inputs acc i) with ⟨e1, acc1, evs⟩
    rw [hu] at hstep
    simp only at hstep
    simp only [Enemy.run, hu]
    rcases hr : Enemy.run e1 acc1 rest with ⟨e2, acc2, evs2⟩
    have hih := ih e1 acc1 (hstep h).1
    rw [hr] at hih
    simp only at hih ⊢
    refine ⟨?_, ?_, ?_⟩
    · intro p
      simp [List.mem_append]
      exact ⟨fun hc => (hstep h).2.1 p hc, fun hc => hih.1 p hc⟩
    · intro p fi
      simp [List.mem_append]
      exact ⟨fun hc => (hstep h).2.2.1 p fi hc, fun hc => hih.2.1 p fi hc⟩
    · simp [List.mem_append]
      exact ⟨fun hc => (hstep h).2.2.2 hc, fun hc => hih.2.2 hc⟩

lemma run_done_wait (ins : List ExtIn) :
    ∀ (e : Enemy) (acc : Acc),
      e.update_fn = UFn.update_attack_capture_capture_done_wait →
      e.count + ins.length ≤ 120 →
      (Enemy.run e acc ins).2.2 = [] ∧
      (e.count + ins.length < 120 →
        (Enemy.run e acc ins).1.update_fn = UFn.update_attack_capture_capture_done_wait ∧
        (Enemy.run e acc ins).1.count = e.count + ins.length) ∧
      (e.count + ins.length = 120 → ins ≠ [] →
        (Enemy.run e acc ins).1.update_fn = UFn.update_attack_capture_back ∧
        (Enemy.run e acc ins).1.count = 120 ∧
        (Enemy.run e acc ins).1.speed = 5 * ONE / 2) := by
  induction ins with
  | nil =>
    intro e acc hf hb
    refine ⟨rfl, fun _ => ⟨hf, by simp [Enemy.run]⟩, fun _ hne => absurd rfl hne⟩
  | cons i rest ih =>
    intro e acc hf hb
    simp only [List.length_cons] at hb
    have ht := done_wait_tick e (set_inputs acc i) hf
    rcases hu : Enemy.update e (set_inputs acc i) with ⟨e1, acc1, evs⟩
    rw [hu] at ht
    simp only at ht
    have hcount1 : e1.count = e.count + 1 := ht.2.1
    simp only [Enemy.run, hu, List.length_cons]
    rcases hr : Enemy.run e1 acc1 rest with ⟨e2, acc2, evs2⟩
    simp only
    by_cases hc : e.count + 1 < 120
    · have h1 := ht.2.2.1 hc
      have hih := ih e1 acc1 h1.1 (by omega)
      rw [hr] at hih
      simp only at hih
      refine ⟨by simp [ht.1, hih.1], ?_, ?_⟩
      · intro hlt
        have := hih.2.1 (by omega)
        exact ⟨this.1, by omega⟩
      · intro h120 _
        rcases Nat.eq_zero_or_pos rest.length with h0 | h0
        · exact absurd hc (by omega)
        · have hne : rest ≠ [] := by
            intro hcon
            rw [hcon] at h0
            simp at h0
          have := hih.2.2 (by omega) hne
          exact ⟨this.1, this.2.1, this.2.2⟩
    · have h120 : e.count + 1 = 120 := by omega
      have hlen0 : rest.length = 0 := by omega
      have hrest : rest = [] := List.length_eq_zero.mp hlen0
      subst hrest
      have hback := ht.2.2.2 (by omega)
      simp only [Enemy.run] at hr
      have he2 : e2 = e1 := by
        have := congrArg Prod.fst hr
        simpa using this.symm
      have hevs2 : evs2 = [] := by
        have := congrArg (fun t => t.2.2) hr
        simpa using this.symm
      subst he2
      subst hevs2
      refine ⟨by simp [ht.1], fun hlt => absurd hlt (by omega), fun _ _ => ?_⟩
      exact ⟨hback.1, by omega, hback.2⟩

lemma map_set_self (m : EnemyMap) (fi : FormationIndex) (x : Enemy) :
    map_set m fi x fi = some x := by
  simp [map_set]

lemma update_troops_nil (add : Vec2I) (angle_opt : Option Int) (m : EnemyMap) :
    update_troops [] add angle_opt m = m := rfl

lemma vec2i_sub_self (v : Vec2I) : v - v = ZERO_VEC := by
  cases v
  simp [vec2i_sub, ZERO_VEC]

lemma push_up_far_tick (e : Enemy) (acc : Acc) (cf : Enemy)
    (hf : e.update_fn = UFn.update_attack_capture_push_up)
    (hsp : e.speed = 0) (hva : e.vangle = 0) (hfl : e.copy_angle_to_troops = false)
    (htr : e.troops = [some (capfi e), none, none])
    (hcf : acc.enemies (capfi e) = some cf)
    (hfar : e.pos.y - 16 * ONE < cf.pos.y - 1 * ONE) :
    (Enemy.update e acc).2.2 = [] ∧
    (Enemy.update e acc).1.update_fn = UFn.update_attack_capture_push_up ∧
    (Enemy.update e acc).1.pos = e.pos ∧
    (Enemy.update e acc).1.speed = 0 ∧
    (Enemy.update e acc).1.vangle = 0 ∧
    (Enemy.update e acc).1.copy_angle_to_troops = false ∧
    (Enemy.update e acc).1.troops = e.troops ∧
    (Enemy.update e acc).1.formation_index = e.formation_index ∧
    (Enemy.update e acc).2.1.enemies (capfi e) =
      some {cf with pos := ⟨cf.pos.x, cf.pos.y - 1 * ONE⟩} := by
  have hchar : run_update_fn e.update_fn e acc =
      ({e with angle := e.angle - clamp e.angle (-(ANGLE * ONE / 128)) (ANGLE * ONE / 128)}, {acc with enemies := map_set acc.enemies (capfi e) {cf with pos := ⟨cf.pos.x, cf.pos.y - 1 * ONE⟩}}, []) := by
    rw [hf]
    show update_attack_capture_push_up e acc = _
    simp only [update_attack_capture_push_up]
    rw [show (⟨e.formation_index.x, e.formation_index.y - 1⟩ : FormationIndex) = capfi e from rfl]
    have hA : ¬ (cf.pos.y - 1 * ONE ≤ e.pos.y - 16 * ONE) := by omega
    simp only [hcf, if_neg hA]
    simp [hf]
  simp only [Enemy.update, hchar]
  simp only [hsp, hfl, calc_velocity_zero, vec2i_add_zero, if_neg Bool.false_ne_true]
  refine ⟨?_, ?_, ?_, ?_, ?_, ?_, ?_, ?_, ?_⟩
  case refine_1 | refine_2 | refine_3 | refine_4 | refine_5 | refine_6 | refine_7 | refine_8 =>
    first
      | trivial
      | exact hf
      | exact hsp
      | exact hva
      | exact hfl
      | (split_ifs <;> first | trivial | exact hf | exact hsp | exact hva | exact hfl)
  · rw [show ({e with angle := e.angle - clamp e.angle (-(ANGLE * ONE / 128)) (ANGLE * ONE / 128)} : Enemy).troops = e.troops from rfl, htr]
    rw [vec2i_sub_self]
    rw [update_troops_cons_some_hit (capfi e) [none, none] ZERO_VEC none _
      {cf with pos := ⟨cf.pos.x, cf.pos.y - 1 * ONE⟩} (map_set_self _ _ _)]
    rw [update_troops_cons_none, update_troops_cons_none]
    show map_set _ (capfi e) _ (capfi e) = _
    rw [map_set_self, update_troop_zero]

lemma set_to_formation_pos (e : Enemy) : (set_to_formation e).pos = e.pos :=
  (set_to_formation_fields e).1

lemma set_to_formation_speed (e : Enemy) : (set_to_formation e).speed = 0 :=
  (set_to_formation_fields e).2.1

lemma set_to_formation_vangle (e : Enemy) : (set_to_formation e).vangle = 0 :=
  (set_to_formation_fields e).2.2.1

lemma set_to_formation_troops (e : Enemy) : (set_to_formation e).troops = e.troops :=
  (set_to_formation_fields e).2.2.2.2.2.1

lemma push_up_done_tick (e : Enemy) (acc : Acc) (cf : Enemy)
    (hf : e.update_fn = UFn.update_attack_capture_push_up)
    (hsp : e.speed = 0) (hva : e.vangle = 0) (hfl : e.copy_angle_to_troops = false)
    (htr : e.troops = [some (capfi e), none, none])
    (hcf : acc.enemies (capfi e) = some cf)
    (hdone : cf.pos.y - 1 * ONE ≤ e.pos.y - 16 * ONE) :
    (Enemy.update e acc).2.2 = [EventType.CaptureSequenceEnded] ∧
    (Enemy.update e acc).1.state = EnemyState.Formation ∧
    (Enemy.update e acc).1.update_fn = UFn.update_formation ∧
    (Enemy.update e acc).1.troops = [none, none, none] ∧
    (Enemy.update e acc).1.pos = e.pos ∧
    ((Enemy.update e acc).2.1.enemies (capfi e)).map (fun t => (t.pos.y, t.state)) =
      some (e.pos.y - 16 * ONE, EnemyState.Formation) := by
  have hchar : run_update_fn e.update_fn e acc =
      (set_to_formation (release_troops {e with angle := e.angle - clamp e.angle (-(ANGLE * ONE / 128)) (ANGLE * ONE / 128)} (map_set acc.enemies (capfi e) {cf with pos := ⟨cf.pos.x, e.pos.y - 16 * ONE⟩})).1, {acc with enemies := (release_troops {e with angle := e.angle - clamp e.angle (-(ANGLE * ONE / 128)) (ANGLE * ONE / 128)} (map_set acc.enemies (capfi e) {cf with pos := ⟨cf.pos.x, e.pos.y - 16 * ONE⟩})).2}, [EventType.CaptureSequenceEnded]) := by
    rw [hf]
    show update_attack_capture_push_up e acc = _
    simp only [update_attack_capture_push_up]
    rw [show (⟨e.formation_index.x, e.formation_index.y - 1⟩ : FormationIndex) = capfi e from rfl]
    simp only [hcf, if_pos hdone]
    simp [hf]
  have hrel1 : (release_troops {e with angle := e.angle - clamp e.angle (-(ANGLE * ONE / 128)) (ANGLE * ONE / 128)} (map_set acc.enemies (capfi e) {cf with pos := ⟨cf.pos.x, e.pos.y - 16 * ONE⟩})).1.troops = [none, none, none] := by
    unfold release_troops
    rw [show ({e with angle := e.angle - clamp e.angle (-(ANGLE * ONE / 128)) (ANGLE * ONE / 128)} : Enemy).troops = e.troops from rfl, htr]
    simp
  have hrel2 : (release_troops {e with angle := e.angle - clamp e.angle (-(ANGLE * ONE / 128)) (ANGLE * ONE / 128)} (map_set acc.enemies (capfi e) {cf with pos := ⟨cf.pos.x, e.pos.y - 16 * ONE⟩})).2 = map_set (map_set acc.enemies (capfi e) {cf with pos := ⟨cf.pos.x, e.pos.y - 16 * ONE⟩}) (capfi e) (set_to_formation {cf with pos := ⟨cf.pos.x, e.pos.y - 16 * ONE⟩}) := by
    unfold release_troops
    rw [show ({e with angle := e.angle - clamp e.angle (-(ANGLE * ONE / 128)) (ANGLE * ONE / 128)} : Enemy).troops = e.troops from rfl, htr]
    simp [map_set_self]
  simp only [Enemy.update, hchar]
  simp only [set_to_formation_speed, set_to_formation_vangle, set_to_formation_pos,
    set_to_formation_troops, calc_velocity_zero, vec2i_add_zero, hrel1, hrel2]
  refine ⟨?_, ?_, ?_, ?_, ?_, ?_⟩
  case refine_1 | refine_2 | refine_3 | refine_4 | refine_5 =>
    first
      | trivial
      | exact set_to_formation_state _
      | exact set_to_formation_update_fn _
      | exact hrel1
      | exact set_to_formation_pos _
      | (split_ifs <;>
          first
            | trivial
            | exact set_to_formation_state _
            | exact set_to_formation_update_fn _
            | exact hrel1
            | exact set_to_formation_pos _)
  · rw [update_troops_cons_none, update_troops_cons_none, update_troops_cons_none,
      update_troops_nil, map_set_self]
    simp [set_to_formation_state, set_to_formation_pos]

lemma run_push_up (ins : List ExtIn) :
    ∀ (k : Nat) (e : Enemy) (acc : Acc) (cf : Enemy),
      e.update_fn = UFn.update_attack_capture_push_up →
      e.speed = 0 → e.vangle = 0 → e.copy_angle_to_troops = false →
      e.troops = [some (capfi e), none, none] →
      acc.enemies (capfi e) = some cf →
      cf.pos.y = e.pos.y - 16 * ONE + k * ONE →
      1 ≤ k → ins.length = k →
      (Enemy.run e acc ins).2.2 = [EventType.CaptureSequenceEnded] ∧
      (Enemy.run e acc ins).1.state = EnemyState.Formation ∧
      (Enemy.run e acc ins).1.troops = [none, none, none] ∧
      ((Enemy.run e acc ins).2.1.enemies (capfi e)).map (fun t => (t.pos.y, t.state)) =
        some (e.pos.y - 16 * ONE, EnemyState.Formation) := by
  induction ins with
  | nil =>
    intro k e acc cf _ _ _ _ _ _ _ hk hlen
    simp at hlen
    omega
  | cons i rest ih =>
    intro k e acc cf hf hsp hva hfl htr hcf hy hk hlen
    simp only [List.length_cons] at hlen
    have hcf2 : (set_inputs acc i).enemies (capfi e) = some cf := hcf
    rcases Nat.lt_or_ge 1 k with hk2 | hk1
    · -- at least two ticks to go: this tick only pushes the fighter up
      have hfar : e.pos.y - 16 * ONE < cf.pos.y - 1 * ONE := by
        rw [hy]
        have : (1 : Int) ≤ (k : Int) - 1 := by
          have : (2 : Int) ≤ (k : Int) := by exact_mod_cast hk2
          omega
        have hone : (0 : Int) < ONE := by norm_num [ONE]
        nlinarith [this, hone]
      have ht := push_up_far_tick e (set_inputs acc i) cf hf hsp hva hfl htr hcf2 hfar
      rcases hu : Enemy.update e (set_inputs acc i) with ⟨e1, acc1, evs⟩
      rw [hu] at ht
      simp only at ht
      have hfi : capfi e1 = capfi e := by
        unfold capfi
        rw [ht.2.2.2.2.2.2.2.1]
      have ihh := ih (k - 1) e1 acc1 {cf with pos := ⟨cf.pos.x, cf.pos.y - 1 * ONE⟩}
        ht.2.1 ht.2.2.2.1 ht.2.2.2.2.1 ht.2.2.2.2.2.1
        (by rw [ht.2.2.2.2.2.2.1, htr, hfi])
        (by rw [hfi]; exact ht.2.2.2.2.2.2.2.2)
        (by
          simp only [ht.2.2.1, hy]
          have hkc : ((k - 1 : Nat) : Int) = (k : Int) - 1 := by
            have : (1 : Nat) ≤ k := by omega
            omega
          rw [hkc]
          ring)
        (by omega) (by omega)
      simp only [Enemy.run, hu]
      rcases hr : Enemy.run e1 acc1 rest with ⟨e2, acc2, evs2⟩
      rw [hr] at ihh
      simp only at ihh ⊢
      rw [hfi] at ihh
      refine ⟨by rw [ht.1]; simp [ihh.1], ihh.2.1, ihh.2.2.1, ?_⟩
      rw [ihh.2.2.2, ht.2.2.1]
    · -- exactly one tick to go: this tick completes the push-up
      have hk1e : k = 1 := by omega
      subst hk1e
      have hdone : cf.pos.y - 1 * ONE ≤ e.pos.y - 16 * ONE := by
        rw [hy]
        norm_num [ONE]
      have ht := push_up_done_tick e (set_inputs acc i) cf hf hsp hva hfl htr hcf2 hdone
      rcases hu : Enemy.update e (set_inputs acc i) with ⟨e1, acc1, evs⟩
      rw [hu] at ht
      simp only at ht
      have hrest : rest = [] := List.length_eq_zero.mp (by omega)
      subst hrest
      simp only [Enemy.run, hu]
      exact ⟨by simp [ht.1], ht.2.1, ht.2.2.2.1, ht.2.2.2.2.2⟩

/-- C1.  Capture protocol end-to-end.  (0) A capture attack puts the Owl
into the Attack state on the capture steering phase.  (A) With the beam
out and not closed, once the player is capturable and within beam range,
that tick pushes exactly the one `CapturePlayer` event and moves to the
BeamTracting wait phase, and (A') no later phase of the protocol ever
pushes `CapturePlayer` again.  (B) Once the closing beam reaches the
closed phase, that tick pushes exactly one `SpawnCapturedFighter` at slot
`(x, y-1)` relative to the Owl together with exactly one
`CapturePlayerCompleted`, adopts the fighter as the sole troop, and starts
the wait counter at 0; (B') no later phase pushes any of those events
again.  (C) The wait phase counts exactly 120 ticks (quietly), after which
the Owl flies back.  (D) After the return, the push-up phase raises the
captured fighter by one unit (`ONE`) per tick until it sits exactly 16
units above the Owl, at which point `CaptureSequenceEnded` is pushed, the
troops are released into Formation state, and the Owl itself ends in
Formation state. -/
theorem capture_protocol :
    (∀ (e : Enemy) (acc : Acc), e.enemy_type = EnemyType.Owl →
       (Enemy.set_attack e true acc).1.update_fn = UFn.update_attack_capture ∧
       (Enemy.set_attack e true acc).1.capturing_state = CapturingState.Attacking ∧
       (Enemy.set_attack e true acc).1.state = EnemyState.Attack) ∧
    (∀ (e : Enemy) (acc : Acc) (tb : TractorBeam),
       e.update_fn = UFn.update_attack_capture_beam → e.tractor_beam = some tb →
       TractorBeam.closed tb = false → acc.can_player_capture_flag = true →
       TractorBeam.can_capture tb acc.player_pos = true →
       (Enemy.update e acc).2.2 = [EventType.CapturePlayer (e.pos + ⟨0, 16 * ONE⟩)] ∧
       (Enemy.update e acc).1.update_fn = UFn.update_attack_capture_start ∧
       (Enemy.update e acc).1.capturing_state = CapturingState.BeamTracting) ∧
    (∀ (e : Enemy) (acc : Acc) (ins : List ExtIn), e.update_fn ∈ after_capture_fns →
       ∀ p, EventType.CapturePlayer p ∉ (Enemy.run e acc ins).2.2) ∧
    (∀ (e : Enemy) (acc : Acc) (tb : TractorBeam),
       e.update_fn = UFn.update_attack_capture_close_beam → e.tractor_beam = some tb →
       TractorBeam.closed tb = true → e.troops = [none, none, none] →
       (Enemy.update e acc).2.2 =
         [EventType.SpawnCapturedFighter (e.pos + ⟨0, 16 * ONE⟩) (capfi e),
          EventType.CapturePlayerCompleted] ∧
       (Enemy.update e acc).1.update_fn = UFn.update_attack_capture_capture_done_wait ∧
       (Enemy.update e acc).1.count = 0 ∧
       (Enemy.update e acc).1.troops = [some (capfi e), none, none] ∧
       (Enemy.update e acc).1.capturing_state = CapturingState.Attacking) ∧
    (∀ (e : Enemy) (acc : Acc) (ins : List ExtIn), e.update_fn ∈ after_spawn_fns →
       (∀ p, EventType.CapturePlayer p ∉ (Enemy.run e acc ins).2.2) ∧
       (∀ p fi, EventType.SpawnCapturedFighter p fi ∉ (Enemy.run e acc ins).2.2) ∧
       EventType.CapturePlayerCompleted ∉ (Enemy.run e acc ins).2.2) ∧
    (∀ (e : Enemy) (acc : Acc) (ins : List ExtIn),
       e.update_fn = UFn.update_attack_capture_capture_done_wait →
       e.count + ins.length ≤ 120 →
       (Enemy.run e acc ins).2.2 = [] ∧
       (e.count + ins.length < 120 →
         (Enemy.run e acc ins).1.update_fn = UFn.update_attack_capture_capture_done_wait ∧
         (Enemy.run e acc ins).1.count = e.count + ins.length) ∧
       (e.count + ins.length = 120 → ins ≠ [] →
         (Enemy.run e acc ins).1.update_fn = UFn.update_attack_capture_back ∧
         (Enemy.run e acc ins).1.count = 120 ∧
         (Enemy.run e acc ins).1.speed = 5 * ONE / 2)) ∧
    (∀ (e : Enemy) (acc : Acc) (cf : Enemy),
       e.update_fn = UFn.update_attack_capture_push_up →
       e.speed = 0 → e.vangle = 0 → e.copy_angle_to_troops = false →
       e.troops = [some (capfi e), none, none] →
       acc.enemies (capfi e) = some cf →
       e.pos.y - 16 * ONE < cf.pos.y - 1 * ONE →
       (Enemy.update e acc).2.2 = [] ∧
       (Enemy.update e acc).2.1.enemies (capfi e) =
         some {cf with pos := ⟨cf.pos.x, cf.pos.y - 1 * ONE⟩}) ∧
    (∀ (ins : List ExtIn) (k : Nat) (e : Enemy) (acc : Acc) (cf : Enemy),
       e.update_fn = UFn.update_attack_capture_push_up →
       e.speed = 0 → e.vangle = 0 → e.copy_angle_to_troops = false →
       e.troops = [some (capfi e), none, none] →
       acc.enemies (capfi e) = some cf →
       cf.pos.y = e.pos.y - 16 * ONE + k * ONE →
       1 ≤ k → ins.length = k →
       (Enemy.run e acc ins).2.2 = [EventType.CaptureSequenceEnded] ∧
       (Enemy.run e acc ins).1.state = EnemyState.Formation ∧
       (Enemy.run e acc ins).1.troops = [none, none, none] ∧
       ((Enemy.run e acc ins).2.1.enemies (capfi e)).map (fun t => (t.pos.y, t.state)) =
         some (e.pos.y - 16 * ONE, EnemyState.Formation)) := by
  refine ⟨?_, ?_, ?_, ?_, ?_, ?_, ?_, ?_⟩
  · intro e acc hty
    simp [Enemy.set_attack, hty, owl_set_attack, set_state_with_fn]
  · intro e acc tb hf htb hcl hcc hcan
    have hrc := beam_capture_tick e acc tb hf htb hcl hcc hcan
    have ho := update_outer_fields e acc
    refine ⟨?_, ?_, ?_⟩
    · rw [ho.2.1, hrc]
    · rw [ho.1, hrc]
    · rw [ho.2.2.2.2.2.2, hrc]
  · intro e acc ins h p
    exact run_after_capture ins e acc h p
  · intro e acc tb hf htb hcl htr
    have hrc := close_beam_tick e acc tb hf htb hcl htr
    have ho := update_outer_fields e acc
    refine ⟨?_, ?_, ?_, ?_, ?_⟩
    · rw [ho.2.1, hrc]
    · rw [ho.1, hrc]
    · rw [ho.2.2.1, hrc]
    · rw [ho.2.2.2.2.2.1, hrc]
    · rw [ho.2.2.2.2.2.2, hrc]
  · intro e acc ins h
    exact run_after_spawn ins e acc h
  · intro e acc ins hf hb
    exact run_done_wait ins e acc hf hb
  · intro e acc cf hf hsp hva hfl htr hcf hfar
    have ht := push_up_far_tick e acc cf hf hsp hva hfl htr hcf hfar
    exact ⟨ht.1, ht.2.2.2.2.2.2.2.2⟩
  · intro ins k e acc cf hf hsp hva hfl htr hcf hy hk hlen
    exact run_push_up ins k e acc cf hf hsp hva hfl htr hcf hy hk hlen

/-- Sample fully open tractor beam below the hovering Owl. -/
def beam_full : TractorBeam :=
  ⟨⟨100 * ONE, 158 * ONE⟩, TractorBeamState.Full, 0, 29 * ONE⟩

/-- Sample tractor beam that has finished closing. -/
def beam_closed : TractorBeam :=
  ⟨⟨100 * ONE, 158 * ONE⟩, TractorBeamState.Closed, 0, 0⟩

/-- Sample Owl hovering with its beam out. -/
def sample_capture_beam : Enemy :=
  {Enemy.new EnemyType.Owl ⟨100 * ONE, 150 * ONE⟩ (ANGLE / 2 * ONE) 0 with
    state := EnemyState.Attack, update_fn := UFn.update_attack_capture_beam,
    formation_index := ⟨3, 2⟩, capturing_state := CapturingState.Attacking,
    tractor_beam := some beam_full}

/-- Accessor during the beam phase: the player sits inside the beam and is
capturable. -/
def acc_capture : Acc :=
  {acc0 with can_player_capture_flag := true, player_pos := ⟨100 * ONE, 200 * ONE⟩}

/-- Sample Owl whose beam has closed after a completed capture. -/
def sample_close_beam : Enemy :=
  {sample_capture_beam with
    update_fn := UFn.update_attack_capture_close_beam,
    capturing_state := CapturingState.BeamTracting, tractor_beam := some beam_closed}

/-- Sample Owl one tick from the end of the 120-tick wait. -/
def sample_done_wait : Enemy :=
  {sample_capture_beam with
    update_fn := UFn.update_attack_capture_capture_done_wait,
    tractor_beam := none, count := 119, troops := [some ⟨3, 1⟩, none, none],
    copy_angle_to_troops := false, capturing_state := CapturingState.Attacking}

/-- One inert tick of external input. -/
def i0 : ExtIn := ⟨ZERO_VEC, none, false, false, false, 0⟩

/-- Sample Owl back at its slot, pushing the captured fighter up. -/
def sample_push_up_owl : Enemy :=
  {sample_capture_beam with
    update_fn := UFn.update_attack_capture_push_up,
    tractor_beam := none, troops := [some ⟨3, 1⟩, none, none],
    copy_angle_to_troops := false}

/-- Sample captured fighter one unit below its final height. -/
def sample_captured : Enemy :=
  {Enemy.new EnemyType.CapturedFighter ⟨100 * ONE, 134 * ONE + ONE⟩ 0 0 with
    state := EnemyState.Troop, formation_index := ⟨3, 1⟩}

/-- Arena holding only the sample captured fighter at slot `(3, 1)`. -/
def acc_push : Acc :=
  {acc0 with enemies := fun j => if j = ⟨3, 1⟩ then some sample_captured else none}

/-- Witness for C1 at the concrete capture scenario. -/
theorem capture_protocol_witness :
    (Enemy.set_attack sample_owl_formation true acc0).1.update_fn =
      UFn.update_attack_capture ∧
    (Enemy.update sample_capture_beam acc_capture).2.2 =
      [EventType.CapturePlayer (sample_capture_beam.pos + ⟨0, 16 * ONE⟩)] ∧
    EventType.CapturePlayer ZERO_VEC ∉ (Enemy.run sample_done_wait acc0 [i0]).2.2 ∧
    (Enemy.update sample_close_beam acc0).2.2 =
      [EventType.SpawnCapturedFighter (sample_close_beam.pos + ⟨0, 16 * ONE⟩)
         (capfi sample_close_beam),
       EventType.CapturePlayerCompleted] ∧
    EventType.CapturePlayerCompleted ∉ (Enemy.run sample_push_up_owl acc_push [i0]).2.2 ∧
    (Enemy.run sample_done_wait acc0 [i0]).1.update_fn = UFn.update_attack_capture_back ∧
    (Enemy.run sample_push_up_owl acc_push [i0]).2.2 = [EventType.CaptureSequenceEnded] ∧
    (Enemy.run sample_push_up_owl acc_push [i0]).1.state = EnemyState.Formation := by
  have h0 := (capture_protocol.1 sample_owl_formation acc0 rfl).1
  have hA := capture_protocol.2.1 sample_capture_beam acc_capture beam_full rfl rfl
    (by decide) rfl (by decide)
  have hA2 := capture_protocol.2.2.1 sample_done_wait acc0 [i0] (by decide) ZERO_VEC
  have hB := capture_protocol.2.2.2.1 sample_close_beam acc0 beam_closed rfl rfl
    (by decide) (by decide)
  have hB2 := (capture_protocol.2.2.2.2.1 sample_push_up_owl acc_push [i0] (by decide)).2.2
  have hC := ((capture_protocol.2.2.2.2.2.1 sample_done_wait acc0 [i0] rfl (by decide)).2.2
    (by decide) (List.cons_ne_nil _ _)).1
  have hD := capture_protocol.2.2.2.2.2.2.2 [i0] 1 sample_push_up_owl acc_push
    sample_captured rfl rfl rfl rfl (by decide) (by decide) (by decide) (by decide) rfl
  exact ⟨h0, hA.1, hA2, hB.1, hB2, hC, hD.1, hD.2.1⟩

/-! ### MoveToFormation termination (C8) -/

/-- One whole tick of `Enemy::update`, viewed as a transformer of the
enemy state alone. -/
def mtf_state_step (acc : Acc) (e : Enemy) : Enemy := (Enemy.update e acc).1

/-- Iterated whole ticks. -/
def mtf_iter (acc : Acc) : Nat → Enemy → Enemy
  | 0, e => e
  | n + 1, e => mtf_iter acc n (mtf_state_step acc e)

/-- An Owl placed in the MoveToFormation state at the given pose. -/
def mtf_enemy (pos : Vec2I) (angle speed : Int) : Enemy :=
  {Enemy.new EnemyType.Owl pos angle speed with
    state := EnemyState.MoveToFormation, update_fn := UFn.update_move_to_formation}

/-- The orbiting configuration: an Owl at `(5000, 0)` (fixed-point units)
heading screen-north at speed `1229`, whose formation slot sits at the
origin.  Its turn limit is `1229 * 5 / 3 = 2048 = ANGLE * ONE / 32`, and
the slot lies inside the resulting turning circle. -/
def orbit_enemy : Enemy := mtf_enemy ⟨5000, 0⟩ 0 1229

/-- Shift the (unreduced) heading by one full clockwise turn. -/
def turn_shift (e : Enemy) : Enemy := {e with angle := e.angle - ANGLE * ONE}

/-- Shift the heading by `k` full clockwise turns. -/
def turn_shiftk : Nat → Enemy → Enemy
  | 0, e => e
  | k + 1, e => turn_shift (turn_shiftk k e)

/-- Check that over each of the next `n` ticks the enemy keeps the
MoveToFormation update function, stays alive, remains in the
MoveToFormation state, and stays strictly outside arrival range. -/
def mtf_moving (acc : Acc) : Nat → Enemy → Bool
  | 0, _ => true
  | n + 1, e =>
    decide (e.update_fn = UFn.update_move_to_formation) &&
    decide (e.life ≠ 0) &&
    decide (e.state = EnemyState.MoveToFormation) &&
    decide (square (asr e.speed (ONE_BIT / 2)) < formation_sq_distance e acc) &&
    mtf_moving acc n (mtf_state_step acc e)

lemma mtf_moving_succ (acc : Acc) (n : Nat) (e : Enemy) :
    mtf_moving acc (n + 1) e = true ↔
      e.update_fn = UFn.update_move_to_formation ∧ e.life ≠ 0 ∧
      e.state = EnemyState.MoveToFormation ∧
      square (asr e.speed (ONE_BIT / 2)) < formation_sq_distance e acc ∧
      mtf_moving acc n (mtf_state_step acc e) = true := by
  simp [mtf_moving, Bool.and_eq_true, decide_eq_true_eq, and_assoc]

lemma diff_angle_sub_turn (t a : Int) :
    diff_angle t (a - ANGLE * ONE) = diff_angle t a := by
  unfold diff_angle normalize_angle
  have h : t - (a - ANGLE * ONE) + ANGLE * ONE / 2 =
      (t - a + ANGLE * ONE / 2) + ANGLE * ONE * 1 := by ring
  rw [h]
  show (t - a + ANGLE * ONE / 2 + ANGLE * ONE * 1) % (ANGLE * ONE) - ANGLE * ONE / 2 =
    (t - a + ANGLE * ONE / 2) % (ANGLE * ONE) - ANGLE * ONE / 2
  rw [Int.add_mul_emod_self_left]

lemma calc_velocity_sub_turn (a s : Int) :
    calc_velocity (a - ANGLE * ONE) s = calc_velocity a s := by
  unfold calc_velocity
  have h1 : asr (a - ANGLE * ONE + ONE / 2) ONE_BIT =
      asr (a + ONE / 2) ONE_BIT - ANGLE := by
    unfold asr
    rw [Int.fdiv_eq_ediv _ (by positivity), Int.fdiv_eq_ediv _ (by positivity)]
    have h : a - ANGLE * ONE + ONE / 2 = (a + ONE / 2) + 2 ^ ONE_BIT * (-ANGLE) := by
      norm_num [ANGLE, ONE, ONE_BIT]
      ring
    rw [h, Int.add_mul_ediv_left _ _ (by norm_num [ONE_BIT] : (2:Int) ^ ONE_BIT ≠ 0)]
    ring
  have h2 : Int.emod (asr (a + ONE / 2) ONE_BIT - ANGLE) ANGLE =
      Int.emod (asr (a + ONE / 2) ONE_BIT) ANGLE := by
    have h : asr (a + ONE / 2) ONE_BIT - ANGLE =
        asr (a + ONE / 2) ONE_BIT + ANGLE * (-1) := by ring
    rw [h]
    show (asr (a + ONE / 2) ONE_BIT + ANGLE * (-1)) % ANGLE =
      asr (a + ONE / 2) ONE_BIT % ANGLE
    rw [Int.add_mul_emod_self_left]
  rw [h1, h2]

lemma mtf_far_tick (e : Enemy) (acc : Acc)
    (hfn : e.update_fn = UFn.update_move_to_formation)
    (hlife : e.life ≠ 0)
    (hfar : square (asr e.speed (ONE_BIT / 2)) < formation_sq_distance e acc) :
    mtf_state_step acc e =
      {e with
        pos := e.pos + calc_velocity
            (e.angle + clamp (diff_angle (formation_bearing e acc) e.angle)
              (-turn_limit e) (turn_limit e)) e.speed,
        angle := e.angle + clamp (diff_angle (formation_bearing e acc) e.angle)
            (-turn_limit e) (turn_limit e),
        vangle := 0,
        tractor_beam := e.tractor_beam.map TractorBeam.update} := by
  have h : square (asr e.speed (ONE_BIT / 2)) <
      square (asr (acc.formation_pos e.formation_index - e.pos).x (ONE_BIT / 2)) +
        square (asr (acc.formation_pos e.formation_index - e.pos).y (ONE_BIT / 2)) := by
    unfold formation_sq_distance formation_diff at hfar
    exact hfar
  have hu : run_update_fn e.update_fn e acc =
      ({e with angle := e.angle + clamp (diff_angle (formation_bearing e acc) e.angle) (-turn_limit e) (turn_limit e), vangle := 0}, acc, []) := by
    conv_lhs => rw [hfn]
    show update_move_to_formation e acc = _
    unfold update_move_to_formation update_move_to_formation_step
      formation_bearing formation_diff turn_limit
    rw [if_pos h]
    rfl
  unfold mtf_state_step
  simp only [Enemy.update, hu]
  simp [is_ghost, hlife, Int.zero_tdiv]

lemma mtf_step_turn_shift (e : Enemy) (acc : Acc)
    (hfn : e.update_fn = UFn.update_move_to_formation)
    (hlife : e.life ≠ 0)
    (hfar : square (asr e.speed (ONE_BIT / 2)) < formation_sq_distance e acc) :
    mtf_state_step acc (turn_shift e) = turn_shift (mtf_state_step acc e) := by
  have hfn2 : (turn_shift e).update_fn = UFn.update_move_to_formation := hfn
  have hlife2 : (turn_shift e).life ≠ 0 := hlife
  have hfar2 : square (asr (turn_shift e).speed (ONE_BIT / 2)) <
      formation_sq_distance (turn_shift e) acc := hfar
  rw [mtf_far_tick e acc hfn hlife hfar, mtf_far_tick (turn_shift e) acc hfn2 hlife2 hfar2]
  have hb : formation_bearing (turn_shift e) acc = formation_bearing e acc := rfl
  have hl : turn_limit (turn_shift e) = turn_limit e := rfl
  have ha : (turn_shift e).angle = e.angle - ANGLE * ONE := rfl
  have hp : (turn_shift e).pos = e.pos := rfl
  have hs : (turn_shift e).speed = e.speed := rfl
  have htb : (turn_shift e).tractor_beam = e.tractor_beam := rfl
  have harg : e.angle - ANGLE * ONE +
      clamp (diff_angle (formation_bearing e acc) e.angle) (-turn_limit e) (turn_limit e) =
      (e.angle + clamp (diff_angle (formation_bearing e acc) e.angle)
        (-turn_limit e) (turn_limit e)) - ANGLE * ONE := by ring
  rw [hb, hl, ha, hp, hs, htb, diff_angle_sub_turn, harg, calc_velocity_sub_turn]
  simp [turn_shift]

set_option maxRecDepth 100000 in
lemma orbit_cycle : mtf_iter acc0 32 orbit_enemy = turn_shift orbit_enemy := by decide

set_option maxRecDepth 100000 in
lemma orbit_moving : mtf_moving acc0 32 orbit_enemy = true := by decide

lemma mtf_iter_turn_shift (acc : Acc) :
    ∀ (n : Nat) (e : Enemy), mtf_moving acc n e = true →
      mtf_iter acc n (turn_shift e) = turn_shift (mtf_iter acc n e) ∧
        mtf_moving acc n (turn_shift e) = true := by
  intro n
  induction n with
  | zero => exact fun e _ => ⟨rfl, rfl⟩
  | succ n ih =>
    intro e h
    rw [mtf_moving_succ] at h
    obtain ⟨hfn, hlife, hstate, hfar, htail⟩ := h
    have hstep := mtf_step_turn_shift e acc hfn hlife hfar
    have ih2 := ih (mtf_state_step acc e) htail
    constructor
    · show mtf_iter acc n (mtf_state_step acc (turn_shift e)) =
        turn_shift (mtf_iter acc n (mtf_state_step acc e))
      rw [hstep]
      exact ih2.1
    · rw [mtf_moving_succ]
      refine ⟨hfn, hlife, hstate, hfar, ?_⟩
      rw [hstep]
      exact ih2.2

lemma mtf_iter_add (acc : Acc) (a b : Nat) :
    ∀ e, mtf_iter acc (a + b) e = mtf_iter acc b (mtf_iter acc a e) := by
  induction a with
  | zero =>
    intro e
    rw [Nat.zero_add]
    rfl
  | succ a ih =>
    intro e
    have h : a + 1 + b = (a + b) + 1 := by omega
    rw [h]
    exact ih (mtf_state_step acc e)

lemma turn_shiftk_comm (k : Nat) (e : Enemy) :
    turn_shiftk k (turn_shift e) = turn_shift (turn_shiftk k e) := by
  induction k with
  | zero => rfl
  | succ k ih =>
    show turn_shift (turn_shiftk k (turn_shift e)) = _
    rw [ih]
    rfl

lemma orbit_block (q : Nat) :
    mtf_iter acc0 32 (turn_shiftk q orbit_enemy) =
      turn_shiftk q (mtf_iter acc0 32 orbit_enemy) ∧
    mtf_moving acc0 32 (turn_shiftk q orbit_enemy) = true := by
  induction q with
  | zero => exact ⟨rfl, orbit_moving⟩
  | succ q ih =>
    have h := mtf_iter_turn_shift acc0 32 (turn_shiftk q orbit_enemy) ih.2
    constructor
    · show mtf_iter acc0 32 (turn_shift (turn_shiftk q orbit_enemy)) = _
      rw [h.1, ih.1]
      rfl
    · exact h.2

lemma orbit_periodic (q : Nat) :
    mtf_iter acc0 (32 * q) orbit_enemy = turn_shiftk q orbit_enemy := by
  induction q with
  | zero => rfl
  | succ q ih =>
    have h : 32 * (q + 1) = 32 * q + 32 := by ring
    rw [h, mtf_iter_add acc0 (32 * q) 32 orbit_enemy, ih, (orbit_block q).1, orbit_cycle]
    exact turn_shiftk_comm q orbit_enemy

lemma mtf_moving_props (acc : Acc) :
    ∀ (n : Nat) (e : Enemy), mtf_moving acc n e = true → ∀ m, m < n →
      (mtf_iter acc m e).state = EnemyState.MoveToFormation ∧
      square (asr (mtf_iter acc m e).speed (ONE_BIT / 2)) <
        formation_sq_distance (mtf_iter acc m e) acc := by
  intro n
  induction n with
  | zero => exact fun e _ m hm => absurd hm (Nat.not_lt_zero m)
  | succ n ih =>
    intro e h m hm
    rw [mtf_moving_succ] at h
    obtain ⟨hfn, hlife, hstate, hfar, htail⟩ := h
    cases m with
    | zero => exact ⟨hstate, hfar⟩
    | succ m =>
      show (mtf_iter acc m (mtf_state_step acc e)).state = _ ∧ _
      exact ih (mtf_state_step acc e) htail m (by omega)

lemma orbit_props (n : Nat) :
    (mtf_iter acc0 n orbit_enemy).state = EnemyState.MoveToFormation ∧
    square (asr (mtf_iter acc0 n orbit_enemy).speed (ONE_BIT / 2)) <
      formation_sq_distance (mtf_iter acc0 n orbit_enemy) acc0 := by
  obtain ⟨q, r, hrlt, rfl⟩ : ∃ q r, r < 32 ∧ n = 32 * q + r :=
    ⟨n / 32, n % 32, Nat.mod_lt n (by norm_num), (Nat.div_add_mod n 32).symm⟩
  rw [mtf_iter_add acc0 (32 * q) r orbit_enemy, orbit_periodic]
  exact mtf_moving_props acc0 32 (turn_shiftk q orbit_enemy) (orbit_block q).2 r hrlt

/-- C8, counterexample.  The termination claim is false as stated: the
concrete MoveToFormation configuration `orbit_enemy` — position
`(5000, 0)`, heading `0`, speed `1229`, formation target at the origin —
circles its target forever.  On every tick the arrival test
(squared shifted distance ≤ squared shifted speed) still fails and the
enemy is still in the MoveToFormation state: the turn limit
`speed * 5 / 3 = 2048` closes an exact 32-tick orbit around a target that
lies inside the turning circle. -/
theorem move_to_formation_nontermination :
    orbit_enemy.pos = ⟨5000, 0⟩ ∧ orbit_enemy.angle = 0 ∧ orbit_enemy.speed = 1229 ∧
    orbit_enemy.state = EnemyState.MoveToFormation ∧
    orbit_enemy.update_fn = UFn.update_move_to_formation ∧
    acc0.formation_pos orbit_enemy.formation_index = ZERO_VEC ∧
    ∀ n : Nat,
      square (asr (mtf_iter acc0 n orbit_enemy).speed (ONE_BIT / 2)) <
        formation_sq_distance (mtf_iter acc0 n orbit_enemy) acc0 ∧
      (mtf_iter acc0 n orbit_enemy).state ≠ EnemyState.Formation := by
  refine ⟨rfl, rfl, rfl, rfl, rfl, rfl, fun n => ⟨(orbit_props n).2, fun hc => ?_⟩⟩
  have h := (orbit_props n).1
  rw [hc] at h
  exact absurd h (by decide)

/-- C8 (amended).  Iterating the MoveToFormation tick (heading correction
clamped to `speed * 5 / 3`, then the forward position update) reaches the
arrival condition from some initial states — for instance the head-on
configuration at `(0, 20000)` heading straight at the origin arrives, in
Formation state, within 17 ticks — but not from every initial state: from
the orbiting configuration `orbit_enemy` the enemy stays in the
MoveToFormation state forever, so the universal termination claim fails. -/
theorem move_to_formation_termination_amended :
    (mtf_iter acc0 17 (mtf_enemy ⟨0, 20000⟩ 0 1229)).state = EnemyState.Formation ∧
    ∀ n : Nat, (mtf_iter acc0 n orbit_enemy).state = EnemyState.MoveToFormation := by
  constructor
  · decide
  · exact fun n => (orbit_props n).1

end Galangua
